import Mathlib

/-!
# Verification development for the etcd coordination layer

Shallow embedding of

* `etcdserver/util.go`   : quorum connectivity queries over a transport,
* `clientv3/kv.go`       : the operation dispatcher and its retry loop,
* `lease/leasehttp/http.go` : the lease forwarding handler and its clients,
* `etcdserver/stats/server.go` : the server statistics updated on append requests.

Modelling conventions.

* `time.Time` is an integer count of nanoseconds relative to the zero instant
  (January 1, year 1, 00:00:00 UTC); it may be negative. `IsZero` is equality
  with `0`, `Before` is `<`. Monotonic clock readings and locations play no
  part in the functions embedded here.
* `types.ID` is a `uint64`; only equality with other IDs and with `0` is ever
  used, so it is a natural number.
* Go `int` values that count list entries are integers; no arithmetic on them
  can leave the 64-bit range because they are bounded by a slice length.
* Slices are lists; `[]*membership.Member` is a list of members (entries are
  taken to be non-nil, as the code dereferences every entry unconditionally).
-/

set_option autoImplicit false
set_option linter.dupNamespace false

namespace etcdserver

/-- Go `types.ID`. -/
abbrev ID := Nat

/-- Go `time.Time`, nanoseconds relative to the zero instant. -/
abbrev Time := Int

/-- Go `Time.IsZero`. -/
def Time.IsZero (t : Time) : Bool := t == 0

/-- Go `Time.Before`. -/
def Time.Before (t u : Time) : Bool := decide (t < u)

/-- The part of `rafthttp.Transporter` that `util.go` consults. -/
structure Transporter where
  ActiveSince : ID → Time

/-- The part of `membership.Member` that `util.go` reads. -/
structure Member where
  ID : ID
deriving DecidableEq, Repr

/-- Source: `isConnectedSince` in `etcdserver/util.go`. -/
def isConnectedSince (transport : Transporter) (since : Time) (remote : ID) : Bool :=
  let t := transport.ActiveSince remote
  !(Time.IsZero t) && Time.Before t since

/-- Source: `numConnectedSince` in `etcdserver/util.go`; the `for range` loop is a
left fold whose accumulator is `connectedNum`. -/
def numConnectedSince (transport : Transporter) (since : Time) (self : ID)
    (members : List Member) : Int :=
  members.foldl
    (fun connectedNum m =>
      if m.ID == self || isConnectedSince transport since m.ID then connectedNum + 1
      else connectedNum)
    0

/-- Source: `isConnectedToQuorumSince` in `etcdserver/util.go`. Go's `/` on `int`
truncates toward zero. -/
def isConnectedToQuorumSince (transport : Transporter) (since : Time) (self : ID)
    (members : List Member) : Bool :=
  decide (numConnectedSince transport since self members
    ≥ Int.tdiv (members.length : Int) 2 + 1)

/-- Source: `isConnectedFullySince` in `etcdserver/util.go`. -/
def isConnectedFullySince (transport : Transporter) (since : Time) (self : ID)
    (members : List Member) : Bool :=
  numConnectedSince transport since self members == (members.length : Int)

/-- Loop state of `longestConnected`: the variables `longest` and `oldest`. -/
structure LongestState where
  longest : ID
  oldest : Time
deriving DecidableEq, Repr

/-- One iteration of the loop body of `longestConnected`. -/
def longestStep (tp : Transporter) (st : LongestState) (id : ID) : LongestState :=
  let tm := tp.ActiveSince id
  if Time.IsZero tm then st -- inactive: `continue`
  else
    let st1 : LongestState :=
      if Time.IsZero st.oldest then { longest := id, oldest := tm } else st
    if Time.Before tm st1.oldest then { longest := id, oldest := tm } else st1

/-- The loop of `longestConnected`, started from the zero values of both variables. -/
def longestLoop (tp : Transporter) (membs : List ID) : LongestState :=
  membs.foldl (longestStep tp) { longest := 0, oldest := 0 }

/-- Source: `longestConnected` in `etcdserver/util.go`; returns `(longest, found)`. -/
def longestConnected (tp : Transporter) (membs : List ID) : ID × Bool :=
  let st := longestLoop tp membs
  if st.longest == 0 then (st.longest, false) else (st.longest, true)

end etcdserver

/-! ## `clientv3/kv.go`: operation dispatch and retry

Go `string` and `[]byte` values are byte sequences; both are rendered as `String`
and the conversions `[]byte(s)` and `string(b)` are the identity. -/

namespace clientv3

/-- A call that either returns a value or aborts with a Go `panic`. -/
inductive Outcome (α : Type) where
  | ret (a : α)
  | panic (msg : String)
deriving DecidableEq, Repr

/-- The operation tags `kv.do` switches on; `tOther` stands for every tag value
that is none of the three named ones (the zero value of `Op` among them). -/
inductive opType where
  | tRange
  | tPut
  | tDeleteRange
  | tOther
deriving DecidableEq, Repr

/-- The fields of `Op` that `kv.go` reads directly. The remaining range options are
only reached through `toRangeRequest`, which is a parameter of the dispatcher. -/
structure Op where
  t : opType
  key : String
  «end» : String
  val : String
  leaseID : Int
  prevKV : Bool
deriving DecidableEq, Repr

/-- Modelled from the spec: `Op.isWrite` is declared outside the files at hand; the
classification is fixed per tag, Range is the read operation and every other kind is
a write. -/
def Op.isWrite (op : Op) : Bool := op.t != opType.tRange

/-- Go `pb.PutRequest` as built by the struct literal in `kv.do`. -/
structure PutRequest where
  Key : String
  Value : String
  Lease : Int
  PrevKv : Bool
deriving DecidableEq, Repr

/-- Go `pb.DeleteRangeRequest` as built by the struct literal in `kv.do`. -/
structure DeleteRangeRequest where
  Key : String
  RangeEnd : String
  PrevKv : Bool
deriving DecidableEq, Repr

/-- Go `OpResponse`: three pointers, `none` for `nil`. -/
structure OpResponse (GetResp PutResp DelResp : Type) where
  put : Option PutResp
  get : Option GetResp
  del : Option DelResp

/-- The zero value `OpResponse{}`. -/
def OpResponse.empty {GetResp PutResp DelResp : Type} : OpResponse GetResp PutResp DelResp :=
  { put := none, get := none, del := none }

/-- The remote `pb.KVClient` together with everything else `kv.Do` consults. The
world state `σ` covers the remote service and the calling context; every RPC is a
transition of it. `isHaltErr` and `toErr` are declared outside the files at hand and
are taken as given; they may read the context, hence the state argument. -/
structure KVClient (σ Err RangeReq GetResp PutResp DelResp : Type) where
  Range : RangeReq → σ → Except Err GetResp × σ
  Put : PutRequest → σ → Except Err PutResp × σ
  DeleteRange : DeleteRangeRequest → σ → Except Err DelResp × σ
  toRangeRequest : Op → RangeReq
  isHaltErr : σ → Err → Bool
  toErr : σ → Err → Err

section dispatcher

variable {σ Err RangeReq GetResp PutResp DelResp : Type}

/-- Source: `kv.do` in `clientv3/kv.go`. Returns the outcome `(OpResponse, error)`
(or a panic for an unknown tag) and the state after the call. -/
def kv.«do» (remote : KVClient σ Err RangeReq GetResp PutResp DelResp) (op : Op) (s : σ) :
    Outcome (OpResponse GetResp PutResp DelResp × Option Err) × σ :=
  match op.t with
  | opType.tRange =>
    match remote.Range (remote.toRangeRequest op) s with
    | (Except.ok resp, s1) => (Outcome.ret ({ put := none, get := some resp, del := none }, none), s1)
    | (Except.error err, s1) => (Outcome.ret (OpResponse.empty, some err), s1)
  | opType.tPut =>
    let r : PutRequest := { Key := op.key, Value := op.val, Lease := op.leaseID, PrevKv := op.prevKV }
    match remote.Put r s with
    | (Except.ok resp, s1) => (Outcome.ret ({ put := some resp, get := none, del := none }, none), s1)
    | (Except.error err, s1) => (Outcome.ret (OpResponse.empty, some err), s1)
  | opType.tDeleteRange =>
    let r : DeleteRangeRequest := { Key := op.key, RangeEnd := op.«end», PrevKv := op.prevKV }
    match remote.DeleteRange r s with
    | (Except.ok resp, s1) => (Outcome.ret ({ put := none, get := none, del := some resp }, none), s1)
    | (Except.error err, s1) => (Outcome.ret (OpResponse.empty, some err), s1)
  | opType.tOther => (Outcome.panic "Unknown op", s)

/-- What a run of `kv.Do` leaves behind: its outcome, the state after the last
remote call, and the number of times `kv.do` was entered. -/
structure DoRun (σ Err GetResp PutResp DelResp : Type) where
  out : Outcome (OpResponse GetResp PutResp DelResp × Option Err)
  state : σ
  attempts : Nat

/-- Source: `kv.Do` in `clientv3/kv.go`. The `for` loop has no exit condition of
its own, so the embedding takes a bound on the number of iterations; `none` means
the bound was reached with the loop still running. `done` counts the iterations
already made. -/
def kv.DoFrom (remote : KVClient σ Err RangeReq GetResp PutResp DelResp) (op : Op) :
    Nat → Nat → σ → Option (DoRun σ Err GetResp PutResp DelResp)
  | 0, _, _ => none
  | fuel + 1, done, s =>
    match kv.«do» remote op s with
    | (Outcome.panic msg, s1) => some { out := Outcome.panic msg, state := s1, attempts := done + 1 }
    | (Outcome.ret (resp, none), s1) =>
      some { out := Outcome.ret (resp, none), state := s1, attempts := done + 1 }
    | (Outcome.ret (resp, some err), s1) =>
      if remote.isHaltErr s1 err then
        some { out := Outcome.ret (resp, some (remote.toErr s1 err)), state := s1, attempts := done + 1 }
      else if op.isWrite then
        -- do not retry on modifications
        some { out := Outcome.ret (resp, some (remote.toErr s1 err)), state := s1, attempts := done + 1 }
      else kv.DoFrom remote op fuel (done + 1) s1

/-- The method `kv.Do`: the loop entered with no iteration made yet. -/
def kv.Do (remote : KVClient σ Err RangeReq GetResp PutResp DelResp) (op : Op) (fuel : Nat)
    (s : σ) : Option (DoRun σ Err GetResp PutResp DelResp) :=
  kv.DoFrom remote op fuel 0 s

/-- The state in which attempt number `k` (counted from `0`) of `op` starts, when
every earlier attempt was followed by another one. -/
def stateBefore (remote : KVClient σ Err RangeReq GetResp PutResp DelResp) (op : Op) (s : σ) :
    Nat → σ
  | 0 => s
  | k + 1 => (kv.«do» remote op (stateBefore remote op s k)).2

end dispatcher

/-- A remote service for worked examples. Its state counts the calls received. `Range`
fails with the transient error `"unavailable"` on its first two calls and answers from
the third on; `Put` and `DeleteRange` always fail with `"unavailable"`. The error
`"permission denied"` is the only halting one and `toErr` tags the error it is given. -/
def flakyRemote : KVClient Nat String Op String String String where
  Range := fun _ n => (if n < 2 then Except.error "unavailable" else Except.ok "kvs", n + 1)
  Put := fun _ n => (Except.error "unavailable", n + 1)
  DeleteRange := fun _ n => (Except.error "unavailable", n + 1)
  toRangeRequest := fun op => op
  isHaltErr := fun _ e => e == "permission denied"
  toErr := fun _ e => "client: " ++ e

/-- A Put of `"v"` under key `"k"`. -/
def examplePut : Op :=
  { t := opType.tPut, key := "k", «end» := "", val := "v", leaseID := 0, prevKV := false }

/-- A Range read of key `"k"`. -/
def exampleRange : Op :=
  { t := opType.tRange, key := "k", «end» := "", val := "", leaseID := 0, prevKV := false }

/-- A remote call as seen by a service that keeps a record of what it is sent. -/
inductive Call where
  | range (req : Op)
  | put (req : PutRequest)
  | deleteRange (req : DeleteRangeRequest)
deriving DecidableEq, Repr

/-- A remote service for worked examples whose state is the record of the calls it
received, oldest first. Every call succeeds; the range request is the operation itself. -/
def recordingRemote : KVClient (List Call) String Op String String String where
  Range := fun req log => (Except.ok "kvs", log ++ [Call.range req])
  Put := fun req log => (Except.ok "stored", log ++ [Call.put req])
  DeleteRange := fun req log => (Except.ok "deleted", log ++ [Call.deleteRange req])
  toRangeRequest := fun op => op
  isHaltErr := fun _ _ => false
  toErr := fun _ e => e

end clientv3

/-! ## `lease/leasehttp/http.go`: the lease forwarding handler and its clients -/

namespace leasehttp

open clientv3 (Outcome)

/-- Go `error` values met by the forwarding code. Two distinct constructors are two
distinct error values, so `==` on errors is equality here. -/
inductive Error where
  /-- The value `lease.ErrLeaseNotFound`. -/
  | ErrLeaseNotFound
  /-- The value `ErrLeaseHTTPTimeout` of this package. -/
  | ErrLeaseHTTPTimeout
  /-- A value made by `fmt.Errorf`, with its text. -/
  | errorf (msg : String)
  /-- Any other error value (lessor, codec, transport, context), with its text. -/
  | other (tag : Nat) (msg : String)
deriving DecidableEq, Repr

/-- Modelled from the spec: the text of `lease.ErrLeaseNotFound`, which is declared in
package `lease`, outside the files at hand. -/
def ErrLeaseNotFoundText : String := "lease not found"

/-- Go `err.Error()`. -/
def Error.Error : Error → String
  | Error.ErrLeaseNotFound => ErrLeaseNotFoundText
  | Error.ErrLeaseHTTPTimeout => "waiting for node to catch up its applied index has timed out"
  | Error.errorf msg => msg
  | Error.other _ msg => msg

def LeasePrefix : String := "/leases"
def LeaseInternalPrefix : String := "/leases/internal"

def StatusOK : Nat := 200
def StatusBadRequest : Nat := 400
def StatusNotFound : Nat := 404
def StatusMethodNotAllowed : Nat := 405
def StatusRequestTimeout : Nat := 408
def StatusInternalServerError : Nat := 500

/-- Go `pb.ResponseHeader`. -/
structure ResponseHeader where
  ClusterId : Nat := 0
  MemberId : Nat := 0
  Revision : Int := 0
  RaftTerm : Nat := 0
deriving DecidableEq, Repr

/-- Go `pb.LeaseKeepAliveRequest`. -/
structure LeaseKeepAliveRequest where
  ID : Int := 0
deriving DecidableEq, Repr

/-- Go `pb.LeaseKeepAliveResponse`. -/
structure LeaseKeepAliveResponse where
  Header : Option ResponseHeader := none
  ID : Int := 0
  TTL : Int := 0
deriving DecidableEq, Repr

/-- Go `pb.LeaseTimeToLiveRequest`. -/
structure LeaseTimeToLiveRequest where
  ID : Int := 0
  Keys : Bool := false
deriving DecidableEq, Repr

/-- Go `pb.LeaseTimeToLiveResponse`. -/
structure LeaseTimeToLiveResponse where
  Header : Option ResponseHeader := none
  ID : Int := 0
  TTL : Int := 0
  GrantedTTL : Int := 0
  Keys : List String := []
deriving DecidableEq, Repr

/-- Go `leasepb.LeaseInternalRequest`: one pointer field, `none` for `nil`. -/
structure LeaseInternalRequest where
  LeaseTimeToLiveRequest : Option LeaseTimeToLiveRequest := none
deriving DecidableEq, Repr

/-- Go `leasepb.LeaseInternalResponse`: one pointer field, `none` for `nil`. -/
structure LeaseInternalResponse where
  LeaseTimeToLiveResponse : Option LeaseTimeToLiveResponse := none
deriving DecidableEq, Repr

/-- The generated wire codec (`Marshal` / `Unmarshal` of the four messages) and the
`%q` verb of `fmt`; all of them live outside the files at hand and are taken as given. -/
structure Codec where
  marshalKeepAliveRequest : LeaseKeepAliveRequest → Except Error String
  unmarshalKeepAliveRequest : String → Except Error LeaseKeepAliveRequest
  marshalKeepAliveResponse : LeaseKeepAliveResponse → Except Error String
  unmarshalKeepAliveResponse : String → Except Error LeaseKeepAliveResponse
  marshalInternalRequest : LeaseInternalRequest → Except Error String
  unmarshalInternalRequest : String → Except Error LeaseInternalRequest
  marshalInternalResponse : LeaseInternalResponse → Except Error String
  unmarshalInternalResponse : String → Except Error LeaseInternalResponse
  quote : String → String

/-- What the handler reads of a `*lease.Lease`: `TTL()`, `Keys()` and
`int64(Remaining().Seconds())`. -/
structure Lease where
  ttl : Int
  remainingSeconds : Int
  keys : List String
deriving DecidableEq, Repr

/-- The part of `lease.Lessor` the handler calls, over a lessor state `σ`. `Renew`
may change the state; `Lookup` reads it. -/
structure Lessor (σ : Type) where
  Renew : Int → σ → Except Error Int × σ
  Lookup : Int → σ → Option Lease

/-- How the `select` between `h.waitch()` and `time.After(applyTimeout)` ends. -/
inductive Gate where
  | fired
  | timedOut
deriving DecidableEq, Repr

/-- Calls the handler makes on its collaborators, in order. -/
inductive Event where
  | waitch
  | renew (id : Int)
  | lookup (id : Int)
deriving DecidableEq, Repr

/-- What `ServeHTTP` reads of the `*http.Request`; `Body` is the result of
`ioutil.ReadAll(r.Body)`. -/
structure Request where
  Method : String
  Path : String
  Body : Except Error String

/-- What the handler writes to the `http.ResponseWriter`. -/
structure Response where
  StatusCode : Nat
  ContentType : String
  Body : String
deriving DecidableEq, Repr

/-- Go `http.Error`: a plain-text reply whose body is the message and a newline. -/
def httpError (msg : String) (code : Nat) : Response :=
  { StatusCode := code, ContentType := "text/plain; charset=utf-8", Body := msg ++ "\n" }

/-- The result of one `ServeHTTP` call: the reply (or a panic), the lessor state
afterwards and the calls made to the gate and the lessor. -/
structure Served (σ : Type) where
  out : Outcome Response
  lessor : σ
  events : List Event

/-- Source: the `case LeasePrefix` arm of `leaseHandler.ServeHTTP`. -/
def serveRenew {σ : Type} (c : Codec) (l : Lessor σ) (gate : Gate) (b : String) (s : σ) :
    Served σ :=
  match c.unmarshalKeepAliveRequest b with
  | Except.error _ =>
    { out := Outcome.ret (httpError "error unmarshalling request" StatusBadRequest),
      lessor := s, events := [] }
  | Except.ok lreq =>
    match gate with
    | Gate.timedOut =>
      { out := Outcome.ret (httpError Error.ErrLeaseHTTPTimeout.Error StatusRequestTimeout),
        lessor := s, events := [Event.waitch] }
    | Gate.fired =>
      match l.Renew lreq.ID s with
      | (Except.error err, s1) =>
        if err = Error.ErrLeaseNotFound then
          { out := Outcome.ret (httpError err.Error StatusNotFound),
            lessor := s1, events := [Event.waitch, Event.renew lreq.ID] }
        else
          { out := Outcome.ret (httpError err.Error StatusBadRequest),
            lessor := s1, events := [Event.waitch, Event.renew lreq.ID] }
      | (Except.ok ttl, s1) =>
        -- TODO: fill out ResponseHeader
        let resp : LeaseKeepAliveResponse := { ID := lreq.ID, TTL := ttl }
        match c.marshalKeepAliveResponse resp with
        | Except.error err =>
          { out := Outcome.ret (httpError err.Error StatusInternalServerError),
            lessor := s1, events := [Event.waitch, Event.renew lreq.ID] }
        | Except.ok v =>
          { out := Outcome.ret
              { StatusCode := StatusOK, ContentType := "application/protobuf", Body := v },
            lessor := s1, events := [Event.waitch, Event.renew lreq.ID] }

/-- Source: the `case LeaseInternalPrefix` arm of `leaseHandler.ServeHTTP`. Reading
`lreq.LeaseTimeToLiveRequest.ID` through a nil pointer panics. -/
def serveTimeToLive {σ : Type} (c : Codec) (l : Lessor σ) (gate : Gate) (b : String) (s : σ) :
    Served σ :=
  match c.unmarshalInternalRequest b with
  | Except.error _ =>
    { out := Outcome.ret (httpError "error unmarshalling request" StatusBadRequest),
      lessor := s, events := [] }
  | Except.ok lreq =>
    match gate with
    | Gate.timedOut =>
      { out := Outcome.ret (httpError Error.ErrLeaseHTTPTimeout.Error StatusRequestTimeout),
        lessor := s, events := [Event.waitch] }
    | Gate.fired =>
      match lreq.LeaseTimeToLiveRequest with
      | none =>
        { out := Outcome.panic "runtime error: invalid memory address or nil pointer dereference",
          lessor := s, events := [Event.waitch] }
      | some treq =>
        match l.Lookup treq.ID s with
        | none =>
          { out := Outcome.ret (httpError Error.ErrLeaseNotFound.Error StatusNotFound),
            lessor := s, events := [Event.waitch, Event.lookup treq.ID] }
        | some le =>
          -- TODO: fill out ResponseHeader
          let inner : LeaseTimeToLiveResponse :=
            { Header := some {}, ID := treq.ID, TTL := le.remainingSeconds, GrantedTTL := le.ttl }
          let inner1 : LeaseTimeToLiveResponse :=
            if treq.Keys then { inner with Keys := le.keys.map (fun k => k) } else inner
          let resp : LeaseInternalResponse := { LeaseTimeToLiveResponse := some inner1 }
          match c.marshalInternalResponse resp with
          | Except.error err =>
            { out := Outcome.ret (httpError err.Error StatusInternalServerError),
              lessor := s, events := [Event.waitch, Event.lookup treq.ID] }
          | Except.ok v =>
            { out := Outcome.ret
                { StatusCode := StatusOK, ContentType := "application/protobuf", Body := v },
              lessor := s, events := [Event.waitch, Event.lookup treq.ID] }

/-- Source: `leaseHandler.ServeHTTP`. -/
def ServeHTTP {σ : Type} (c : Codec) (l : Lessor σ) (gate : Gate) (r : Request) (s : σ) :
    Served σ :=
  if r.Method ≠ "POST" then
    { out := Outcome.ret (httpError "Method Not Allowed" StatusMethodNotAllowed),
      lessor := s, events := [] }
  else
    match r.Body with
    | Except.error _ =>
      { out := Outcome.ret (httpError "error reading body" StatusBadRequest),
        lessor := s, events := [] }
    | Except.ok b =>
      if r.Path = LeasePrefix then serveRenew c l gate b s
      else if r.Path = LeaseInternalPrefix then serveTimeToLive c l gate b s
      else
        { out := Outcome.ret
            (httpError ("unknown request path " ++ c.quote r.Path) StatusBadRequest),
          lessor := s, events := [] }

/-- What the clients read of the `*http.Response`; `Body` is the result of
`readResponse`. -/
structure HTTPResponse where
  StatusCode : Nat
  Body : Except Error String

/-- The request a client hands to its `http.Client`. -/
structure ClientRequest where
  Method : String
  URL : String
  ContentType : String
  Body : String
deriving DecidableEq, Repr

/-- The network side of a client call: `http.NewRequest` (which may reject the URL)
and `cc.Do` over the given `http.RoundTripper`; both are outside the files at hand. -/
structure Net where
  NewRequest : String → String → String → Except Error ClientRequest
  Do : ClientRequest → Except Error HTTPResponse

/-- Source: `RenewHTTP`; returns `(ttl, err)`. Cancellation of `ctx` reaches the
call only as an error of `cc.Do`. -/
def RenewHTTP (c : Codec) (net : Net) (id : Int) (url : String) : Int × Option Error :=
  match c.marshalKeepAliveRequest { ID := id } with
  | Except.error err => (-1, some err)
  | Except.ok lreq =>
    match net.NewRequest "POST" url lreq with
    | Except.error err => (-1, some err)
    | Except.ok req0 =>
      let req := { req0 with ContentType := "application/protobuf" }
      match net.Do req with
      | Except.error err => (-1, some err)
      | Except.ok resp =>
        match resp.Body with
        | Except.error err => (-1, some err)
        | Except.ok b =>
          if resp.StatusCode = StatusRequestTimeout then (-1, some Error.ErrLeaseHTTPTimeout)
          else if resp.StatusCode = StatusNotFound then (-1, some Error.ErrLeaseNotFound)
          else if resp.StatusCode ≠ StatusOK then
            (-1, some (Error.errorf ("lease: unknown error(" ++ b ++ ")")))
          else
            match c.unmarshalKeepAliveResponse b with
            | Except.error err =>
              (-1, some (Error.errorf ("lease: " ++ err.Error ++ ". data = \"" ++ b ++ "\"")))
            | Except.ok lresp =>
              if lresp.ID ≠ id then (-1, some (Error.errorf "lease: renew id mismatch"))
              else (lresp.TTL, none)

/-- Source: the goroutine started by `TimeToLiveHTTP`; returns the bytes left in `b`
and the value sent on `errc`. -/
def timeToLiveRoundTrip (net : Net) (req : ClientRequest) : String × Option Error :=
  match net.Do req with
  | Except.error err => ("", some err)
  | Except.ok resp =>
    match resp.Body with
    | Except.error err => ("", some err)
    | Except.ok b =>
      if resp.StatusCode = StatusRequestTimeout then (b, some Error.ErrLeaseHTTPTimeout)
      else if resp.StatusCode = StatusNotFound then (b, some Error.ErrLeaseNotFound)
      else if resp.StatusCode ≠ StatusOK then
        (b, some (Error.errorf ("lease: unknown error(" ++ b ++ ")")))
      else (b, none)

/-- How the `select` between `errc` and `ctx.Done()` in `TimeToLiveHTTP` ends:
with the goroutine's report, or with the context done (carrying `ctx.Err()`). -/
inductive Race where
  | completed
  | ctxDone (err : Error)
deriving DecidableEq, Repr

/-- What a `TimeToLiveHTTP` call returns, and whether it called `cancel()`. -/
structure TimeToLiveRun where
  resp : Option LeaseInternalResponse
  err : Option Error
  cancelled : Bool
deriving DecidableEq, Repr

/-- Source: `TimeToLiveHTTP`. Reading `lresp.LeaseTimeToLiveResponse.ID` through a
nil pointer panics. -/
def TimeToLiveHTTP (c : Codec) (net : Net) (race : Race) (id : Int) (keys : Bool)
    (url : String) : Outcome TimeToLiveRun :=
  match c.marshalInternalRequest { LeaseTimeToLiveRequest := some { ID := id, Keys := keys } } with
  | Except.error err => Outcome.ret { resp := none, err := some err, cancelled := false }
  | Except.ok lreq =>
    match net.NewRequest "POST" url lreq with
    | Except.error err => Outcome.ret { resp := none, err := some err, cancelled := false }
    | Except.ok req0 =>
      let req := { req0 with ContentType := "application/protobuf" }
      match race with
      | Race.ctxDone cerr => Outcome.ret { resp := none, err := some cerr, cancelled := true }
      | Race.completed =>
        match timeToLiveRoundTrip net req with
        | (_, some derr) => Outcome.ret { resp := none, err := some derr, cancelled := false }
        | (b, none) =>
          match c.unmarshalInternalResponse b with
          | Except.error err =>
            Outcome.ret
              { resp := none,
                err := some (Error.errorf ("lease: " ++ err.Error ++ ". data = \"" ++ b ++ "\"")),
                cancelled := false }
          | Except.ok lresp =>
            match lresp.LeaseTimeToLiveResponse with
            | none => Outcome.panic "runtime error: invalid memory address or nil pointer dereference"
            | some inner =>
              if inner.ID ≠ id then
                Outcome.ret
                  { resp := none, err := some (Error.errorf "lease: renew id mismatch"),
                    cancelled := false }
              else Outcome.ret { resp := some lresp, err := none, cancelled := false }

/-- A transport that delivers the handler's reply intact: same status, body readable. -/
def deliver (resp : Response) : HTTPResponse :=
  { StatusCode := resp.StatusCode, Body := Except.ok resp.Body }

/-- A network for worked examples whose every call reaches the given handler state:
the URL is taken as the request path, the body always reads, and a handler panic shows
as a transport error. -/
def loopback {σ : Type} (c : Codec) (l : Lessor σ) (gate : Gate) (s : σ) : Net where
  NewRequest := fun method url body =>
    Except.ok { Method := method, URL := url, ContentType := "", Body := body }
  Do := fun req =>
    match (ServeHTTP c l gate { Method := req.Method, Path := req.URL, Body := Except.ok req.Body }
        s).out with
    | Outcome.ret resp => Except.ok (deliver resp)
    | Outcome.panic _ => Except.error (Error.other 0 "EOF")

/-- A network for worked examples that answers every call with the same response. -/
def cannedNet (resp : HTTPResponse) : Net where
  NewRequest := fun method url body =>
    Except.ok { Method := method, URL := url, ContentType := "", Body := body }
  Do := fun _ => Except.ok resp

/-- The reply of the examples to a TTL lookup of lease 7 that asks for the keys. -/
def exampleLeaseReply : LeaseInternalResponse :=
  { LeaseTimeToLiveResponse :=
      some { Header := some {}, ID := 7, TTL := 12, GrantedTTL := 30, Keys := ["a", "b"] } }

/-- A wire codec for worked examples. It encodes the messages about leases 7 and 9 that
the examples exchange and rejects everything else; the empty body decodes to an internal
message without its inner message, as it does on the real wire. -/
def exampleCodec : Codec where
  marshalKeepAliveRequest := fun r =>
    if r.ID = 7 then Except.ok "renew 7"
    else if r.ID = 9 then Except.ok "renew 9"
    else Except.error (Error.other 1 "cannot encode")
  unmarshalKeepAliveRequest := fun b =>
    if b = "renew 7" then Except.ok { ID := 7 }
    else if b = "renew 9" then Except.ok { ID := 9 }
    else Except.error (Error.other 2 "cannot decode")
  marshalKeepAliveResponse := fun r =>
    if r = { ID := 7, TTL := 30 } then Except.ok "renewed 7 30"
    else Except.error (Error.other 1 "cannot encode")
  unmarshalKeepAliveResponse := fun b =>
    if b = "renewed 7 30" then Except.ok { ID := 7, TTL := 30 }
    else Except.error (Error.other 2 "cannot decode")
  marshalInternalRequest := fun r =>
    if r = { LeaseTimeToLiveRequest := some { ID := 7, Keys := true } } then Except.ok "ttl 7 keys"
    else if r = { LeaseTimeToLiveRequest := some { ID := 9, Keys := false } } then Except.ok "ttl 9"
    else Except.error (Error.other 1 "cannot encode")
  unmarshalInternalRequest := fun b =>
    if b = "ttl 7 keys" then Except.ok { LeaseTimeToLiveRequest := some { ID := 7, Keys := true } }
    else if b = "ttl 9" then Except.ok { LeaseTimeToLiveRequest := some { ID := 9, Keys := false } }
    else if b = "" then Except.ok { LeaseTimeToLiveRequest := none }
    else Except.error (Error.other 2 "cannot decode")
  marshalInternalResponse := fun r =>
    if r = exampleLeaseReply then Except.ok "lease 7 12 30 a b"
    else Except.error (Error.other 1 "cannot encode")
  unmarshalInternalResponse := fun b =>
    if b = "lease 7 12 30 a b" then Except.ok exampleLeaseReply
    else if b = "" then Except.ok { LeaseTimeToLiveResponse := none }
    else Except.error (Error.other 2 "cannot decode")
  quote := fun p => "\"" ++ p ++ "\""

/-- A lessor for worked examples. It holds the single lease 7 (granted TTL 30, 12 seconds
remaining, keys `a` and `b`); its state counts the renewals performed. -/
def exampleLessor : Lessor Nat where
  Renew := fun id n =>
    if id = 7 then (Except.ok 30, n + 1) else (Except.error Error.ErrLeaseNotFound, n)
  Lookup := fun id _ =>
    if id = 7 then some { ttl := 30, remainingSeconds := 12, keys := ["a", "b"] } else none

/-- A wire codec for worked examples that decodes like `exampleCodec` and encodes every
TTL-lookup response: the reply about lease 7 as `exampleCodec` does, any other one as a
fixed placeholder. -/
def totalEncoder : Codec :=
  { exampleCodec with
    marshalInternalResponse := fun m =>
      Except.ok (if m = exampleLeaseReply then "lease 7 12 30 a b" else "other reply") }

/-- A lessor for worked examples that is not the primary: every renewal fails with an
error other than `ErrLeaseNotFound`. -/
def demotedLessor : Lessor Nat where
  Renew := fun _ n => (Except.error (Error.other 3 "not a primary lessor"), n)
  Lookup := fun _ _ => none

/-! ### The causes the status codes stand for

The following predicates name, for a request `r` served from lessor state `s`, the
situations that the status mapping of the wire contract distinguishes. -/

/-- The request is malformed: its body cannot be read, or does not parse for its path,
or its path is neither of the two known ones. -/
def Malformed (c : Codec) (r : Request) : Prop :=
  (∃ e, r.Body = Except.error e)
  ∨ (∃ b e, r.Body = Except.ok b ∧ r.Path = LeasePrefix
      ∧ c.unmarshalKeepAliveRequest b = Except.error e)
  ∨ (∃ b e, r.Body = Except.ok b ∧ r.Path = LeaseInternalPrefix
      ∧ c.unmarshalInternalRequest b = Except.error e)
  ∨ (r.Path ≠ LeasePrefix ∧ r.Path ≠ LeaseInternalPrefix)

/-- The request is a well-formed renewal and `Lessor.Renew` fails on it with the error
`err`. -/
def RenewFails {σ : Type} (c : Codec) (l : Lessor σ) (r : Request) (s : σ) (err : Error) :
    Prop :=
  ∃ b q s1, r.Body = Except.ok b ∧ r.Path = LeasePrefix
    ∧ c.unmarshalKeepAliveRequest b = Except.ok q ∧ l.Renew q.ID s = (Except.error err, s1)

/-- The lease asked about does not exist: `Renew` reports `ErrLeaseNotFound`, or `Lookup`
finds nothing. -/
def LeaseNotFound {σ : Type} (c : Codec) (l : Lessor σ) (r : Request) (s : σ) : Prop :=
  RenewFails c l r s Error.ErrLeaseNotFound
  ∨ (∃ b q treq, r.Body = Except.ok b ∧ r.Path = LeaseInternalPrefix
      ∧ c.unmarshalInternalRequest b = Except.ok q ∧ q.LeaseTimeToLiveRequest = some treq
      ∧ l.Lookup treq.ID s = none)

/-- The operation was executed and its response message does not encode. -/
def EncodeFails {σ : Type} (c : Codec) (l : Lessor σ) (r : Request) (s : σ) : Prop :=
  (∃ b q ttl s1 e, r.Body = Except.ok b ∧ r.Path = LeasePrefix
      ∧ c.unmarshalKeepAliveRequest b = Except.ok q ∧ l.Renew q.ID s = (Except.ok ttl, s1)
      ∧ c.marshalKeepAliveResponse { ID := q.ID, TTL := ttl } = Except.error e)
  ∨ (∃ b q treq le e, r.Body = Except.ok b ∧ r.Path = LeaseInternalPrefix
      ∧ c.unmarshalInternalRequest b = Except.ok q ∧ q.LeaseTimeToLiveRequest = some treq
      ∧ l.Lookup treq.ID s = some le
      ∧ c.marshalInternalResponse
          { LeaseTimeToLiveResponse := some
              { Header := some {}, ID := treq.ID, TTL := le.remainingSeconds,
                GrantedTTL := le.ttl, Keys := if treq.Keys then le.keys else [] } }
        = Except.error e)

end leasehttp

/-! ## `etcdserver/stats/server.go`: server statistics

The mutex embedded in `ServerStats` orders concurrent callers; the embedding follows one
caller at a time and leaves it out. Every reading of `time.Now()` is an argument of the
call that takes it. -/

namespace stats

open etcdserver (Time)

/-- Go `raft.StateType`, declared in package `raft`, outside the files at hand: the three
node states, pairwise distinct. -/
inductive StateType where
  | StateFollower
  | StateCandidate
  | StateLeader
deriving DecidableEq, Repr

/-- Go `RequestStats` as built by the struct literals in `server.go`. -/
structure RequestStats where
  SendingTime : Time
  Size : Int
deriving DecidableEq, Repr

/-- The anonymous struct type of the field `LeaderInfo`. -/
structure LeaderInfo where
  Name : String
  Uptime : String
  StartTime : Time
deriving DecidableEq, Repr

/-- Go `ServerStats`. `F` is the type of the `float64` rate fields, which the functions
embedded here carry along and never compute on; `Q` is the type of the `*statsQueue`
fields. The counters are `uint64` values, kept below `2 ^ 64` by every update. -/
structure ServerStats (F Q : Type) where
  Name : String
  ID : String
  State : StateType
  StartTime : Time
  LeaderInfo : LeaderInfo
  RecvAppendRequestCnt : Nat
  RecvingPkgRate : F
  RecvingBandwidthRate : F
  SendAppendRequestCnt : Nat
  SendingPkgRate : F
  SendingBandwidthRate : F
  sendRateQueue : Q
  recvRateQueue : Q

section serverStats

variable {F Q : Type}

/-- Source: `ServerStats.RecvAppendReq`. `Insert` is the method `statsQueue.Insert`,
declared outside the files at hand and taken as given; `now` is the reading of
`time.Now()`. -/
def ServerStats.RecvAppendReq (Insert : Q → RequestStats → Q) (ss : ServerStats F Q)
    (leader : String) (reqSize : Int) (now : Time) : ServerStats F Q :=
  let ss1 := { ss with State := StateType.StateFollower }
  let ss2 :=
    if leader ≠ ss1.LeaderInfo.Name then
      { ss1 with LeaderInfo := { ss1.LeaderInfo with Name := leader, StartTime := now } }
    else ss1
  let ss3 :=
    { ss2 with
      recvRateQueue := Insert ss2.recvRateQueue { SendingTime := now, Size := reqSize } }
  { ss3 with RecvAppendRequestCnt := (ss3.RecvAppendRequestCnt + 1) % 2 ^ 64 }

/-- Source: `ServerStats.becomeLeader`; `now` is the reading of `time.Now()`, taken only
when the state changes. -/
def ServerStats.becomeLeader (ss : ServerStats F Q) (now : Time) : ServerStats F Q :=
  if ss.State ≠ StateType.StateLeader then
    { ss with
      State := StateType.StateLeader
      LeaderInfo := { ss.LeaderInfo with Name := ss.ID, StartTime := now } }
  else ss

/-- Source: `ServerStats.BecomeLeader`, the locked entry point of `becomeLeader`. -/
def ServerStats.BecomeLeader (ss : ServerStats F Q) (now : Time) : ServerStats F Q :=
  ss.becomeLeader now

/-- Source: `ServerStats.SendAppendReq`. `nowLeader` is the reading of `time.Now()` inside
`becomeLeader`, `nowSend` the one stored in the `RequestStats`. -/
def ServerStats.SendAppendReq (Insert : Q → RequestStats → Q) (ss : ServerStats F Q)
    (reqSize : Int) (nowLeader nowSend : Time) : ServerStats F Q :=
  let ss1 := ss.becomeLeader nowLeader
  let ss2 :=
    { ss1 with
      sendRateQueue := Insert ss1.sendRateQueue { SendingTime := nowSend, Size := reqSize } }
  { ss2 with SendAppendRequestCnt := (ss2.SendAppendRequestCnt + 1) % 2 ^ 64 }

/-- One call on a `ServerStats`, with its arguments and clock readings. -/
inductive Step where
  | RecvAppendReq (leader : String) (reqSize : Int) (now : Time)
  | SendAppendReq (reqSize : Int) (nowLeader nowSend : Time)
  | BecomeLeader (now : Time)
deriving DecidableEq, Repr

/-- The effect of one call. -/
def ServerStats.step (Insert : Q → RequestStats → Q) (ss : ServerStats F Q) :
    Step → ServerStats F Q
  | Step.RecvAppendReq leader reqSize now => ss.RecvAppendReq Insert leader reqSize now
  | Step.SendAppendReq reqSize nowLeader nowSend =>
    ss.SendAppendReq Insert reqSize nowLeader nowSend
  | Step.BecomeLeader now => ss.BecomeLeader now

/-- The effect of a sequence of calls, made one after the other. -/
def ServerStats.run (Insert : Q → RequestStats → Q) (ss : ServerStats F Q)
    (calls : List Step) : ServerStats F Q :=
  calls.foldl (ServerStats.step Insert) ss

end serverStats

/-- A rate queue for worked examples: the requests inserted, newest first. -/
def exampleInsert (q : List RequestStats) (r : RequestStats) : List RequestStats := r :: q

/-- A freshly started follower `n1` for worked examples; its rate fields are left out
(type `Unit`) and its receive counter stands at the largest `uint64`. -/
def exampleStats : ServerStats Unit (List RequestStats) where
  Name := "node1"
  ID := "n1"
  State := StateType.StateFollower
  StartTime := 1000
  LeaderInfo := { Name := "", Uptime := "", StartTime := 1000 }
  RecvAppendRequestCnt := 2 ^ 64 - 1
  RecvingPkgRate := ()
  RecvingBandwidthRate := ()
  SendAppendRequestCnt := 0
  SendingPkgRate := ()
  SendingBandwidthRate := ()
  sendRateQueue := []
  recvRateQueue := []

end stats

/-! # Theorems -/

/-! ## Connectivity queries (`etcdserver/util.go`) -/

namespace etcdserver

/-- The counting fold of `numConnectedSince`, started from any value of the counter. -/
theorem foldl_count_eq (p : Member → Bool) (l : List Member) (n : Int) :
    l.foldl (fun c m => if p m then c + 1 else c) n = n + (l.countP p : Int) := by
  induction l generalizing n with
  | nil => simp
  | cons a t ih =>
    simp only [List.foldl_cons, List.countP_cons]
    by_cases h : p a = true
    · simp only [h, if_true]; rw [ih]; push_cast; ring
    · simp only [h, if_false]; rw [ih]; simp

/-- The count is the number of entries that are self or connected since `since`. -/
theorem numConnectedSince_countP (transport : Transporter) (since : Time) (self : ID)
    (members : List Member) :
    numConnectedSince transport since self members
      = (members.countP (fun m => m.ID == self || isConnectedSince transport since m.ID) : Int) := by
  unfold numConnectedSince
  rw [foldl_count_eq (fun m => m.ID == self || isConnectedSince transport since m.ID)]
  simp

/-- The connectivity test in the words of the transport contract. -/
theorem isConnectedSince_iff (transport : Transporter) (since : Time) (remote : ID) :
    isConnectedSince transport since remote = true
      ↔ transport.ActiveSince remote ≠ 0 ∧ transport.ActiveSince remote < since := by
  simp [isConnectedSince, Time.IsZero, Time.Before]

/-- Truncating division by two of a slice length is the floor of the rational half. -/
theorem tdiv_two_eq_floor (n : Nat) : Int.tdiv (n : Int) 2 = ⌊((n : ℚ) / 2)⌋ := by
  rw [Int.tdiv_eq_ediv (Int.ofNat_nonneg n) (by norm_num)]
  have h := Rat.floor_intCast_div_natCast (n : Int) 2
  simpa using h.symm

/-- Claim C1: `isConnectedToQuorumSince` is true exactly when the connected count is at
least `floor(len(members)/2) + 1`; with five members of which self and two others are
connected since the reference time, the count is three and the answer is true. -/
theorem isConnectedToQuorumSince_iff (transport : Transporter) (since : Time) (self : ID)
    (members : List Member) :
    (isConnectedToQuorumSince transport since self members = true
      ↔ numConnectedSince transport since self members
          ≥ ⌊((members.length : ℚ) / 2)⌋ + 1)
    ∧ (numConnectedSince ⟨fun id => if id = 2 ∨ id = 3 then 10 else 0⟩ 20 1
          [⟨1⟩, ⟨2⟩, ⟨3⟩, ⟨4⟩, ⟨5⟩] = 3
        ∧ isConnectedToQuorumSince ⟨fun id => if id = 2 ∨ id = 3 then 10 else 0⟩ 20 1
          [⟨1⟩, ⟨2⟩, ⟨3⟩, ⟨4⟩, ⟨5⟩] = true) := by
  refine ⟨?_, by decide, by decide⟩
  unfold isConnectedToQuorumSince
  rw [tdiv_two_eq_floor]
  simp

/-- Claim C2: `isConnectedFullySince` is true exactly when the connected count equals
`len(members)`, which is exactly when every entry of the list is self or connected since
the reference time; with five members and a count of three the answer is false. -/
theorem isConnectedFullySince_iff (transport : Transporter) (since : Time) (self : ID)
    (members : List Member) :
    (isConnectedFullySince transport since self members = true
      ↔ numConnectedSince transport since self members = (members.length : Int))
    ∧ (isConnectedFullySince transport since self members = true
      ↔ ∀ m ∈ members, m.ID = self ∨
          (transport.ActiveSince m.ID ≠ 0 ∧ transport.ActiveSince m.ID < since))
    ∧ isConnectedFullySince ⟨fun id => if id = 2 ∨ id = 3 then 10 else 0⟩ 20 1
          [⟨1⟩, ⟨2⟩, ⟨3⟩, ⟨4⟩, ⟨5⟩] = false := by
  refine ⟨?_, ?_, by decide⟩
  · simp [isConnectedFullySince]
  · unfold isConnectedFullySince
    rw [numConnectedSince_countP]
    simp only [beq_iff_eq, Nat.cast_inj, List.countP_eq_length, Bool.or_eq_true,
      isConnectedSince_iff]

/-- Claim C3: `numConnectedSince` is the number of list entries, with multiplicity, whose
ID is self or whose activeSince is non-zero and strictly before `since`; a non-self entry
whose activeSince is zero or not before `since` adds nothing wherever it stands in the
list, and an entry equal to self adds one whatever the transport reports. -/
theorem numConnectedSince_spec (transport : Transporter) (since : Time) (self : ID)
    (members : List Member) :
    numConnectedSince transport since self members
      = ((members.countP (fun m => decide (m.ID = self ∨
          (transport.ActiveSince m.ID ≠ 0 ∧ transport.ActiveSince m.ID < since))) : Nat) : Int)
    ∧ (∀ (m : Member) (pre post : List Member), m.ID ≠ self →
        (transport.ActiveSince m.ID = 0 ∨ since ≤ transport.ActiveSince m.ID) →
        numConnectedSince transport since self (pre ++ m :: post)
          = numConnectedSince transport since self (pre ++ post))
    ∧ (∀ (m : Member) (pre post : List Member), m.ID = self →
        numConnectedSince transport since self (pre ++ m :: post)
          = numConnectedSince transport since self (pre ++ post) + 1) := by
  have key : ∀ m : Member,
      (m.ID == self || isConnectedSince transport since m.ID)
        = decide (m.ID = self ∨
            (transport.ActiveSince m.ID ≠ 0 ∧ transport.ActiveSince m.ID < since)) := by
    intro m
    rw [Bool.eq_iff_iff]
    simp only [Bool.or_eq_true, beq_iff_eq, isConnectedSince_iff, decide_eq_true_eq]
  refine ⟨?_, ?_, ?_⟩
  · rw [numConnectedSince_countP]
    congr 1
    exact List.countP_congr (fun m _ => by rw [key m])
  · intro m pre post hne hz
    have hm : (m.ID == self || isConnectedSince transport since m.ID) = false := by
      rw [key m]
      simp only [decide_eq_false_iff_not, not_or, not_and, not_lt]
      refine ⟨hne, fun h0 => ?_⟩
      rcases hz with hz | hz
      · exact absurd hz h0
      · exact hz
    simp only [numConnectedSince_countP, List.countP_append, List.countP_cons, hm]
    simp
  · intro m pre post heq
    have hm : (m.ID == self || isConnectedSince transport since m.ID) = true := by
      simp [heq]
    simp only [numConnectedSince_countP, List.countP_append, List.countP_cons, hm]
    push_cast
    ring

/-- Witness for C2 at the five-member example. -/
theorem isConnectedFullySince_iff_witness :
    isConnectedFullySince ⟨fun id => if id = 2 ∨ id = 3 then 10 else 0⟩ 20 1
        [⟨1⟩, ⟨2⟩, ⟨3⟩, ⟨4⟩, ⟨5⟩] = true
      ↔ numConnectedSince ⟨fun id => if id = 2 ∨ id = 3 then 10 else 0⟩ 20 1
        [⟨1⟩, ⟨2⟩, ⟨3⟩, ⟨4⟩, ⟨5⟩] = (([⟨1⟩, ⟨2⟩, ⟨3⟩, ⟨4⟩, ⟨5⟩] : List Member).length : Int) :=
  (isConnectedFullySince_iff ⟨fun id => if id = 2 ∨ id = 3 then 10 else 0⟩ 20 1
    [⟨1⟩, ⟨2⟩, ⟨3⟩, ⟨4⟩, ⟨5⟩]).1

/-- Witness for C3: member 4 is not self and has a zero activeSince, so dropping it from
the five-member list leaves the count unchanged. -/
theorem numConnectedSince_spec_witness :
    numConnectedSince ⟨fun id => if id = 2 ∨ id = 3 then 10 else 0⟩ 20 1
        ([⟨1⟩, ⟨2⟩, ⟨3⟩] ++ ⟨4⟩ :: [⟨5⟩])
      = numConnectedSince ⟨fun id => if id = 2 ∨ id = 3 then 10 else 0⟩ 20 1
        ([⟨1⟩, ⟨2⟩, ⟨3⟩] ++ [⟨5⟩]) :=
  (numConnectedSince_spec ⟨fun id => if id = 2 ∨ id = 3 then 10 else 0⟩ 20 1 []).2.1
    ⟨4⟩ [⟨1⟩, ⟨2⟩, ⟨3⟩] [⟨5⟩] (by decide) (Or.inl (by decide))

/-- One loop iteration on an inactive candidate leaves the state alone. -/
theorem longestStep_inactive (tp : Transporter) (st : LongestState) (id : ID)
    (h : tp.ActiveSince id = 0) : longestStep tp st id = st := by
  simp [longestStep, Time.IsZero, h]

/-- One loop iteration on an active candidate, seen from a state that has no choice yet. -/
theorem longestStep_first (tp : Transporter) (st : LongestState) (id : ID)
    (h : tp.ActiveSince id ≠ 0) (h0 : st.oldest = 0) :
    longestStep tp st id = { longest := id, oldest := tp.ActiveSince id } := by
  simp [longestStep, Time.IsZero, Time.Before, h, h0]

/-- One loop iteration on an active candidate, seen from a state that holds a choice:
the candidate replaces the choice exactly when it is strictly earlier. -/
theorem longestStep_later (tp : Transporter) (st : LongestState) (id : ID)
    (h : tp.ActiveSince id ≠ 0) (h0 : st.oldest ≠ 0) :
    longestStep tp st id
      = if tp.ActiveSince id < st.oldest then { longest := id, oldest := tp.ActiveSince id }
        else st := by
  simp [longestStep, Time.IsZero, Time.Before, h, h0]

/-- Loop invariant of `longestConnected`: either nothing scanned so far is active and both
variables still hold their zero values, or the state holds a scanned candidate together
with its non-zero activeSince, which is minimal among the active candidates scanned. -/
theorem longestLoop_inv (tp : Transporter) (membs : List ID) :
    ((longestLoop tp membs).oldest = 0 ∧ (longestLoop tp membs).longest = 0
        ∧ ∀ id ∈ membs, tp.ActiveSince id = 0)
    ∨ ((longestLoop tp membs).oldest ≠ 0 ∧ (longestLoop tp membs).longest ∈ membs
        ∧ tp.ActiveSince (longestLoop tp membs).longest = (longestLoop tp membs).oldest
        ∧ ∀ id ∈ membs, tp.ActiveSince id ≠ 0 →
            (longestLoop tp membs).oldest ≤ tp.ActiveSince id) := by
  induction membs using List.reverseRecOn with
  | nil => left; simp [longestLoop]
  | append_singleton l a ih =>
    have hstep : longestLoop tp (l ++ [a]) = longestStep tp (longestLoop tp l) a := by
      simp [longestLoop, List.foldl_append]
    rw [hstep]
    by_cases ha : tp.ActiveSince a = 0
    · rw [longestStep_inactive tp _ a ha]
      rcases ih with ⟨h1, h2, h3⟩ | ⟨h1, h2, h3, h4⟩
      · left
        refine ⟨h1, h2, ?_⟩
        intro id hid
        rcases List.mem_append.1 hid with h | h
        · exact h3 id h
        · rw [List.mem_singleton.1 h]; exact ha
      · right
        refine ⟨h1, List.mem_append_left _ h2, h3, ?_⟩
        intro id hid hne
        rcases List.mem_append.1 hid with h | h
        · exact h4 id h hne
        · rw [List.mem_singleton.1 h] at hne; exact absurd ha hne
    · right
      rcases ih with ⟨h1, _, h3⟩ | ⟨h1, h2, h3, h4⟩
      · rw [longestStep_first tp _ a ha h1]
        refine ⟨ha, by simp, rfl, ?_⟩
        intro id hid hne
        rcases List.mem_append.1 hid with h | h
        · exact absurd (h3 id h) hne
        · rw [List.mem_singleton.1 h]
      · rw [longestStep_later tp _ a ha h1]
        by_cases hlt : tp.ActiveSince a < (longestLoop tp l).oldest
        · rw [if_pos hlt]
          refine ⟨ha, by simp, rfl, ?_⟩
          intro id hid hne
          rcases List.mem_append.1 hid with h | h
          · exact le_trans (le_of_lt hlt) (h4 id h hne)
          · rw [List.mem_singleton.1 h]
        · rw [if_neg hlt]
          refine ⟨h1, List.mem_append_left _ h2, h3, ?_⟩
          intro id hid hne
          rcases List.mem_append.1 hid with h | h
          · exact h4 id h hne
          · rw [List.mem_singleton.1 h]; exact not_lt.1 hlt

/-- The ID returned by `longestConnected` is the loop's choice, and `found` reports
whether that ID differs from zero. -/
theorem longestConnected_eq (tp : Transporter) (membs : List ID) :
    (longestConnected tp membs).1 = (longestLoop tp membs).longest
    ∧ ((longestConnected tp membs).2 = true ↔ (longestLoop tp membs).longest ≠ 0) := by
  unfold longestConnected
  by_cases h : (longestLoop tp membs).longest = 0 <;> simp [h]

/-- Counterexample to C4 as stated: the only candidate has ID 0 and is active (activeSince
5), yet `longestConnected` reports `found = false`. -/
theorem longestConnected_found_counterexample :
    (∃ id ∈ ([0] : List ID), (Transporter.mk (fun _ => 5)).ActiveSince id ≠ 0)
    ∧ longestConnected (Transporter.mk (fun _ => 5)) [0] = (0, false) := by
  decide

/-- Claim C4 (amended): when at least one candidate has a non-zero activeSince,
`longestConnected` returns a candidate from the list whose activeSince is non-zero and at
most the activeSince of every connected candidate; `found` is true exactly when the
returned ID is not 0, so it is true whenever no connected candidate has ID 0. On
{A:t2, B:t1, C:zero} with t1 < t2 the result is (B, true). -/
theorem longestConnected_spec (tp : Transporter) (membs : List ID)
    (h : ∃ id ∈ membs, tp.ActiveSince id ≠ 0) :
    (longestConnected tp membs).1 ∈ membs
    ∧ tp.ActiveSince (longestConnected tp membs).1 ≠ 0
    ∧ (∀ id ∈ membs, tp.ActiveSince id ≠ 0 →
        tp.ActiveSince (longestConnected tp membs).1 ≤ tp.ActiveSince id)
    ∧ ((longestConnected tp membs).2 = true ↔ (longestConnected tp membs).1 ≠ 0)
    ∧ ((∀ id ∈ membs, tp.ActiveSince id ≠ 0 → id ≠ 0) → (longestConnected tp membs).2 = true)
    ∧ longestConnected ⟨fun id => if id = 1 then 200 else if id = 2 then 100 else 0⟩ [1, 2, 3]
        = (2, true) := by
  obtain ⟨hid, hfound⟩ := longestConnected_eq tp membs
  obtain ⟨w, hw, hwne⟩ := h
  rcases longestLoop_inv tp membs with ⟨_, _, h3⟩ | ⟨h1, h2, h3, h4⟩
  · exact absurd (h3 w hw) hwne
  · rw [hid]
    have hne : tp.ActiveSince (longestLoop tp membs).longest ≠ 0 := by rw [h3]; exact h1
    refine ⟨h2, hne, ?_, hfound, ?_, by decide⟩
    · intro id hmem hidne
      rw [h3]; exact h4 id hmem hidne
    · intro hall
      exact hfound.2 (hall _ h2 hne)

/-- Witness for C4 at the example {1:200, 2:100, 3:zero}. -/
theorem longestConnected_spec_witness :
    (∃ id ∈ ([1, 2, 3] : List ID),
        (Transporter.mk (fun id => if id = 1 then 200 else if id = 2 then 100 else 0)).ActiveSince
          id ≠ 0)
    ∧ (longestConnected ⟨fun id => if id = 1 then 200 else if id = 2 then 100 else 0⟩
        [1, 2, 3]).1 ∈ ([1, 2, 3] : List ID) :=
  ⟨by decide,
   (longestConnected_spec ⟨fun id => if id = 1 then 200 else if id = 2 then 100 else 0⟩
      [1, 2, 3] (by decide)).1⟩

/-- Claim C5: when every candidate has a zero activeSince (the empty list included),
`longestConnected` returns `found = false`. -/
theorem longestConnected_none (tp : Transporter) (membs : List ID)
    (h : ∀ id ∈ membs, tp.ActiveSince id = 0) :
    (longestConnected tp membs).2 = false := by
  obtain ⟨_, hfound⟩ := longestConnected_eq tp membs
  rcases longestLoop_inv tp membs with ⟨_, h2, _⟩ | ⟨h1, h2, h3, _⟩
  · by_contra hc
    exact (hfound.1 (by simpa using hc)) h2
  · exact absurd (h3 ▸ h _ h2) h1

/-- Witness for C5 on three candidates, none of them active, and on the empty list. -/
theorem longestConnected_none_witness :
    (longestConnected ⟨fun _ => 0⟩ [1, 2, 3]).2 = false
    ∧ (longestConnected ⟨fun _ => 7⟩ []).2 = false :=
  ⟨longestConnected_none ⟨fun _ => 0⟩ [1, 2, 3] (by decide),
   longestConnected_none ⟨fun _ => 7⟩ [] (by decide)⟩

/-- Positional loop invariant of `longestConnected`: when the state holds a choice, the
scanned list splits around an occurrence of it such that every candidate before it is
inactive or strictly later, and every candidate after it is inactive or not earlier. -/
theorem longestLoop_first (tp : Transporter) (membs : List ID) :
    ((longestLoop tp membs).oldest = 0 ∧ (longestLoop tp membs).longest = 0
        ∧ ∀ id ∈ membs, tp.ActiveSince id = 0)
    ∨ ((longestLoop tp membs).oldest ≠ 0
        ∧ tp.ActiveSince (longestLoop tp membs).longest = (longestLoop tp membs).oldest
        ∧ ∃ pre post, membs = pre ++ (longestLoop tp membs).longest :: post
            ∧ (∀ id ∈ pre, tp.ActiveSince id = 0
                ∨ (longestLoop tp membs).oldest < tp.ActiveSince id)
            ∧ (∀ id ∈ post, tp.ActiveSince id = 0
                ∨ (longestLoop tp membs).oldest ≤ tp.ActiveSince id)) := by
  induction membs using List.reverseRecOn with
  | nil => left; simp [longestLoop]
  | append_singleton l a ih =>
    have hstep : longestLoop tp (l ++ [a]) = longestStep tp (longestLoop tp l) a := by
      simp [longestLoop, List.foldl_append]
    rw [hstep]
    by_cases ha : tp.ActiveSince a = 0
    · rw [longestStep_inactive tp _ a ha]
      rcases ih with ⟨h1, h2, h3⟩ | ⟨h1, h2, pre, post, hsplit, hpre, hpost⟩
      · left
        refine ⟨h1, h2, ?_⟩
        intro id hid
        rcases List.mem_append.1 hid with h | h
        · exact h3 id h
        · rw [List.mem_singleton.1 h]; exact ha
      · right
        refine ⟨h1, h2, pre, post ++ [a], ?_, hpre, ?_⟩
        · conv_lhs => rw [hsplit]
          simp
        · intro id hid
          rcases List.mem_append.1 hid with h | h
          · exact hpost id h
          · rw [List.mem_singleton.1 h]; exact Or.inl ha
    · right
      rcases ih with ⟨h1, _, h3⟩ | ⟨h1, h2, pre, post, hsplit, hpre, hpost⟩
      · rw [longestStep_first tp _ a ha h1]
        refine ⟨ha, rfl, l, [], rfl, ?_, by simp⟩
        intro id hid
        exact Or.inl (h3 id hid)
      · rw [longestStep_later tp _ a ha h1]
        by_cases hlt : tp.ActiveSince a < (longestLoop tp l).oldest
        · rw [if_pos hlt]
          refine ⟨ha, rfl, l, [], rfl, ?_, by simp⟩
          intro id hid
          show tp.ActiveSince id = 0 ∨ tp.ActiveSince a < tp.ActiveSince id
          rw [hsplit] at hid
          rcases List.mem_append.1 hid with h | h
          · rcases hpre id h with h0 | h0
            · exact Or.inl h0
            · exact Or.inr (lt_trans hlt h0)
          · rcases List.mem_cons.1 h with h | h
            · right; rw [h, h2]; exact hlt
            · rcases hpost id h with h0 | h0
              · exact Or.inl h0
              · exact Or.inr (lt_of_lt_of_le hlt h0)
        · rw [if_neg hlt]
          refine ⟨h1, h2, pre, post ++ [a], ?_, hpre, ?_⟩
          · conv_lhs => rw [hsplit]
            simp
          · intro id hid
            rcases List.mem_append.1 hid with h | h
            · exact hpost id h
            · rw [List.mem_singleton.1 h]; exact Or.inr (not_lt.1 hlt)

/-- Claim C18: when some candidate is connected, the ID returned by `longestConnected`
stands at the first list position that attains the minimum non-zero activeSince: every
candidate before that position is inactive or strictly later, every candidate after it is
inactive or not earlier. The reason is in the loop body: once a choice is held, a later
active candidate that is not strictly earlier leaves the state as it is. With the ties
{1:100, 2:50, 3:50} scanned in that order the result is 2. -/
theorem longestConnected_first_wins (tp : Transporter) (membs : List ID)
    (h : ∃ id ∈ membs, tp.ActiveSince id ≠ 0) :
    (∃ pre post, membs = pre ++ (longestConnected tp membs).1 :: post
        ∧ tp.ActiveSince (longestConnected tp membs).1 ≠ 0
        ∧ (∀ id ∈ pre, tp.ActiveSince id = 0
            ∨ tp.ActiveSince (longestConnected tp membs).1 < tp.ActiveSince id)
        ∧ (∀ id ∈ post, tp.ActiveSince id = 0
            ∨ tp.ActiveSince (longestConnected tp membs).1 ≤ tp.ActiveSince id))
    ∧ (∀ (st : LongestState) (id : ID), st.oldest ≠ 0 → tp.ActiveSince id ≠ 0 →
        st.oldest ≤ tp.ActiveSince id → longestStep tp st id = st)
    ∧ longestConnected ⟨fun id => if id = 1 then 100 else if id = 2 ∨ id = 3 then 50 else 0⟩
        [1, 2, 3] = (2, true) := by
  obtain ⟨hid, _⟩ := longestConnected_eq tp membs
  obtain ⟨w, hw, hwne⟩ := h
  refine ⟨?_, ?_, by decide⟩
  · rcases longestLoop_first tp membs with ⟨_, _, h3⟩ | ⟨h1, h2, pre, post, hsplit, hpre, hpost⟩
    · exact absurd (h3 w hw) hwne
    · rw [hid, h2]
      exact ⟨pre, post, hsplit, h1, hpre, hpost⟩
  · intro st id h0 hne hle
    rw [longestStep_later tp st id hne h0, if_neg (not_lt.2 hle)]

/-- Witness for C18 on the ties {1:100, 2:50, 3:50}. -/
theorem longestConnected_first_wins_witness :
    ∃ pre post, ([1, 2, 3] : List ID)
        = pre ++ (longestConnected
            ⟨fun id => if id = 1 then 100 else if id = 2 ∨ id = 3 then 50 else 0⟩ [1, 2, 3]).1
          :: post
      ∧ (∀ id ∈ pre,
          (Transporter.mk
            (fun id => if id = 1 then 100 else if id = 2 ∨ id = 3 then 50 else 0)).ActiveSince id
            = 0
          ∨ (Transporter.mk
            (fun id => if id = 1 then 100 else if id = 2 ∨ id = 3 then 50 else 0)).ActiveSince
              (longestConnected
                ⟨fun id => if id = 1 then 100 else if id = 2 ∨ id = 3 then 50 else 0⟩
                [1, 2, 3]).1
            < (Transporter.mk
            (fun id => if id = 1 then 100 else if id = 2 ∨ id = 3 then 50 else 0)).ActiveSince
              id) :=
  match (longestConnected_first_wins
      ⟨fun id => if id = 1 then 100 else if id = 2 ∨ id = 3 then 50 else 0⟩ [1, 2, 3]
      ⟨1, by decide, by decide⟩).1 with
  | ⟨pre, post, hsplit, _, hpre, _⟩ => ⟨pre, post, hsplit, hpre⟩

/-- The count never exceeds the number of members. -/
theorem numConnectedSince_le_length (transport : Transporter) (since : Time) (self : ID)
    (members : List Member) :
    numConnectedSince transport since self members ≤ (members.length : Int) := by
  rw [numConnectedSince_countP]
  exact_mod_cast List.countP_le_length _

/-- A connection that predates `s1` predates every later reference time. -/
theorem isConnectedSince_mono (transport : Transporter) (s1 s2 : Time) (h : s1 ≤ s2)
    (remote : ID) (hc : isConnectedSince transport s1 remote = true) :
    isConnectedSince transport s2 remote = true := by
  rw [isConnectedSince_iff] at hc ⊢
  exact ⟨hc.1, lt_of_lt_of_le hc.2 h⟩

/-- The count grows with the reference time. -/
theorem numConnectedSince_mono (transport : Transporter) (s1 s2 : Time) (h : s1 ≤ s2)
    (self : ID) (members : List Member) :
    numConnectedSince transport s1 self members ≤ numConnectedSince transport s2 self members := by
  rw [numConnectedSince_countP, numConnectedSince_countP]
  have hmono : List.countP (fun m => m.ID == self || isConnectedSince transport s1 m.ID) members
      ≤ List.countP (fun m => m.ID == self || isConnectedSince transport s2 m.ID) members := by
    apply List.countP_mono_left
    intro m _ hm
    simp only [Bool.or_eq_true] at hm ⊢
    rcases hm with hm | hm
    · exact Or.inl hm
    · exact Or.inr (isConnectedSince_mono transport s1 s2 h m.ID hm)
  exact_mod_cast hmono

/-- Claim C21: for a non-empty member list, being connected to all members since `since`
implies being connected to a quorum since `since`; for the empty list the implication
fails, because fully-connected is true (0 = 0) while quorum is false (0 < 1). -/
theorem fully_implies_quorum (transport : Transporter) (since : Time) (self : ID)
    (members : List Member) :
    (members ≠ [] → isConnectedFullySince transport since self members = true →
      isConnectedToQuorumSince transport since self members = true)
    ∧ isConnectedFullySince transport since self [] = true
    ∧ isConnectedToQuorumSince transport since self [] = false := by
  refine ⟨?_, ?_, ?_⟩
  · intro hne hfull
    have hlen : 1 ≤ (members.length : Int) := by
      have : 0 < members.length := List.length_pos.2 hne
      exact_mod_cast this
    have hnum : numConnectedSince transport since self members = (members.length : Int) := by
      simpa [isConnectedFullySince] using hfull
    unfold isConnectedToQuorumSince
    rw [hnum, Int.tdiv_eq_ediv (Int.ofNat_nonneg _) (by norm_num)]
    simp only [ge_iff_le, decide_eq_true_eq]
    omega
  · simp [isConnectedFullySince, numConnectedSince]
  · simp [isConnectedToQuorumSince, numConnectedSince]

/-- Witness for C21: with two members, both counted, the local member is connected to all
and hence to a quorum. -/
theorem fully_implies_quorum_witness :
    isConnectedToQuorumSince ⟨fun _ => 10⟩ 20 1 [⟨1⟩, ⟨2⟩] = true :=
  (fully_implies_quorum ⟨fun _ => 10⟩ 20 1 [⟨1⟩, ⟨2⟩]).1 (by decide) (by decide)

/-- Claim C22: for a fixed transport snapshot, self and member list, and reference times
`s1 ≤ s2`, the count at `s1` is at most the count at `s2`; hence quorum connectivity at
`s1` implies it at `s2`, and likewise full connectivity; and the count never exceeds
`len(members)`. -/
theorem connectivity_monotone (transport : Transporter) (self : ID) (members : List Member)
    (s1 s2 : Time) (h : s1 ≤ s2) :
    numConnectedSince transport s1 self members ≤ numConnectedSince transport s2 self members
    ∧ (isConnectedToQuorumSince transport s1 self members = true →
        isConnectedToQuorumSince transport s2 self members = true)
    ∧ (isConnectedFullySince transport s1 self members = true →
        isConnectedFullySince transport s2 self members = true)
    ∧ numConnectedSince transport s1 self members ≤ (members.length : Int)
    ∧ numConnectedSince transport s2 self members ≤ (members.length : Int) := by
  have hmono := numConnectedSince_mono transport s1 s2 h self members
  have hle1 := numConnectedSince_le_length transport s1 self members
  have hle2 := numConnectedSince_le_length transport s2 self members
  refine ⟨hmono, ?_, ?_, hle1, hle2⟩
  · unfold isConnectedToQuorumSince
    simp only [ge_iff_le, decide_eq_true_eq]
    intro hq
    exact le_trans hq hmono
  · unfold isConnectedFullySince
    simp only [beq_iff_eq]
    intro hf
    exact le_antisymm hle2 (hf ▸ hmono)

/-- Witness for C22: member 2 became active at time 10; the count seen from reference time
5 (self only) is at most the count seen from reference time 20 (both members). -/
theorem connectivity_monotone_witness :
    numConnectedSince ⟨fun _ => 10⟩ 5 1 [⟨1⟩, ⟨2⟩]
      ≤ numConnectedSince ⟨fun _ => 10⟩ 20 1 [⟨1⟩, ⟨2⟩] :=
  (connectivity_monotone ⟨fun _ => 10⟩ 1 [⟨1⟩, ⟨2⟩] 5 20 (by decide)).1

end etcdserver

/-! ## Operation dispatch and retry (`clientv3/kv.go`) -/

namespace clientv3

section dispatcher

variable {σ Err RangeReq GetResp PutResp DelResp : Type}

/-- What `kv.do` does for a Range operation. -/
theorem do_range (remote : KVClient σ Err RangeReq GetResp PutResp DelResp) (op : Op) (s : σ)
    (ht : op.t = opType.tRange) :
    kv.«do» remote op s
      = match remote.Range (remote.toRangeRequest op) s with
        | (Except.ok resp, s1) =>
          (Outcome.ret ({ put := none, get := some resp, del := none }, none), s1)
        | (Except.error err, s1) => (Outcome.ret (OpResponse.empty, some err), s1) := by
  simp only [kv.«do», ht]

/-- What `kv.do` does for a Put operation. -/
theorem do_put (remote : KVClient σ Err RangeReq GetResp PutResp DelResp) (op : Op) (s : σ)
    (ht : op.t = opType.tPut) :
    kv.«do» remote op s
      = match remote.Put
          { Key := op.key, Value := op.val, Lease := op.leaseID, PrevKv := op.prevKV } s with
        | (Except.ok resp, s1) =>
          (Outcome.ret ({ put := some resp, get := none, del := none }, none), s1)
        | (Except.error err, s1) => (Outcome.ret (OpResponse.empty, some err), s1) := by
  simp only [kv.«do», ht]

/-- What `kv.do` does for a DeleteRange operation. -/
theorem do_deleteRange (remote : KVClient σ Err RangeReq GetResp PutResp DelResp) (op : Op)
    (s : σ) (ht : op.t = opType.tDeleteRange) :
    kv.«do» remote op s
      = match remote.DeleteRange
          { Key := op.key, RangeEnd := op.«end», PrevKv := op.prevKV } s with
        | (Except.ok resp, s1) =>
          (Outcome.ret ({ put := none, get := none, del := some resp }, none), s1)
        | (Except.error err, s1) => (Outcome.ret (OpResponse.empty, some err), s1) := by
  simp only [kv.«do», ht]

/-- An attempt that ends in a halting error is the last one, whatever the operation. -/
theorem DoFrom_halt (remote : KVClient σ Err RangeReq GetResp PutResp DelResp) (op : Op)
    (s s1 : σ) (resp : OpResponse GetResp PutResp DelResp) (e : Err) (fuel done : Nat)
    (hdo : kv.«do» remote op s = (Outcome.ret (resp, some e), s1))
    (hhalt : remote.isHaltErr s1 e = true) :
    kv.DoFrom remote op (fuel + 1) done s
      = some { out := Outcome.ret (resp, some (remote.toErr s1 e)), state := s1,
               attempts := done + 1 } := by
  simp [kv.DoFrom, hdo, hhalt]

/-- A failed attempt of a write is the last one, whether the error halts or not. -/
theorem DoFrom_write_error (remote : KVClient σ Err RangeReq GetResp PutResp DelResp) (op : Op)
    (s s1 : σ) (resp : OpResponse GetResp PutResp DelResp) (e : Err) (fuel done : Nat)
    (hdo : kv.«do» remote op s = (Outcome.ret (resp, some e), s1))
    (hw : op.isWrite = true) :
    kv.DoFrom remote op (fuel + 1) done s
      = some { out := Outcome.ret (resp, some (remote.toErr s1 e)), state := s1,
               attempts := done + 1 } := by
  by_cases hhalt : remote.isHaltErr s1 e = true
  · exact DoFrom_halt remote op s s1 resp e fuel done hdo hhalt
  · simp [kv.DoFrom, hdo, hhalt, hw]

/-- A successful attempt is the last one. -/
theorem DoFrom_ok (remote : KVClient σ Err RangeReq GetResp PutResp DelResp) (op : Op)
    (s s1 : σ) (resp : OpResponse GetResp PutResp DelResp) (fuel done : Nat)
    (hdo : kv.«do» remote op s = (Outcome.ret (resp, none), s1)) :
    kv.DoFrom remote op (fuel + 1) done s
      = some { out := Outcome.ret (resp, none), state := s1, attempts := done + 1 } := by
  simp [kv.DoFrom, hdo]

/-- A read attempt that ends in a non-halting error is followed by another attempt. -/
theorem DoFrom_retry (remote : KVClient σ Err RangeReq GetResp PutResp DelResp) (op : Op)
    (s s1 : σ) (resp : OpResponse GetResp PutResp DelResp) (e : Err) (fuel done : Nat)
    (hdo : kv.«do» remote op s = (Outcome.ret (resp, some e), s1))
    (hhalt : remote.isHaltErr s1 e = false) (hw : op.isWrite = false) :
    kv.DoFrom remote op (fuel + 1) done s = kv.DoFrom remote op fuel (done + 1) s1 := by
  simp [kv.DoFrom, hdo, hhalt, hw]

/-- Attempt `k + 1` from `s` is attempt `k` from the state after the first attempt. -/
theorem stateBefore_shift (remote : KVClient σ Err RangeReq GetResp PutResp DelResp) (op : Op)
    (s : σ) (k : Nat) :
    stateBefore remote op s (k + 1) = stateBefore remote op (kv.«do» remote op s).2 k := by
  induction k with
  | zero => rfl
  | succ k ih =>
    show (kv.«do» remote op (stateBefore remote op s (k + 1))).2 = _
    rw [ih]
    rfl

/-- A run of `m` reads that each end in a non-halting error uses up `m` iterations and
leaves the loop at the start of attempt `m`. -/
theorem DoFrom_retries (remote : KVClient σ Err RangeReq GetResp PutResp DelResp) (op : Op)
    (ht : op.t = opType.tRange) (m : Nat) :
    ∀ (s : σ) (fuel done : Nat),
      (∀ k, k < m → ∃ e,
        (remote.Range (remote.toRangeRequest op) (stateBefore remote op s k)).1 = Except.error e
        ∧ remote.isHaltErr (stateBefore remote op s (k + 1)) e = false) →
      kv.DoFrom remote op (fuel + m) done s
        = kv.DoFrom remote op fuel (done + m) (stateBefore remote op s m) := by
  induction m with
  | zero => intro s fuel done _; rfl
  | succ m ih =>
    intro s fuel done h
    obtain ⟨e, he, hhalt⟩ := h 0 (Nat.succ_pos m)
    have hdo : kv.«do» remote op s
        = (Outcome.ret (OpResponse.empty, some e), (kv.«do» remote op s).2) := by
      rw [do_range remote op s ht]
      simp only [stateBefore] at he
      rcases hr : remote.Range (remote.toRangeRequest op) s with ⟨r, s1⟩
      rw [hr] at he
      simp only at he
      subst he
      rfl
    have hw : op.isWrite = false := by simp [Op.isWrite, ht]
    have hstep := DoFrom_retry remote op s _ _ e (fuel + m) done hdo hhalt hw
    rw [show fuel + (m + 1) = fuel + m + 1 from rfl, hstep]
    rw [ih (kv.«do» remote op s).2 fuel (done + 1)]
    · rw [stateBefore_shift, show done + 1 + m = done + (m + 1) by omega]
    · intro k hk
      obtain ⟨e1, he1, hh1⟩ := h (k + 1) (Nat.succ_lt_succ hk)
      refine ⟨e1, ?_, ?_⟩
      · rw [← stateBefore_shift]; exact he1
      · rw [← stateBefore_shift]; exact hh1

/-- Claim C6: for a Put or DeleteRange whose first remote call fails with any error,
halting or not, `kv.Do` returns after that single call (one attempt, the remote left in
the state right after its first call) with the empty response and the error translated by
`toErr`; no further call is made, whatever the iteration bound. -/
theorem Do_write_error_once (remote : KVClient σ Err RangeReq GetResp PutResp DelResp)
    (op : Op) (s s1 : σ) (e : Err) (fuel : Nat)
    (hfail :
      (op.t = opType.tPut ∧
        remote.Put { Key := op.key, Value := op.val, Lease := op.leaseID, PrevKv := op.prevKV } s
          = (Except.error e, s1))
      ∨ (op.t = opType.tDeleteRange ∧
        remote.DeleteRange { Key := op.key, RangeEnd := op.«end», PrevKv := op.prevKV } s
          = (Except.error e, s1))) :
    kv.Do remote op (fuel + 1) s
      = some { out := Outcome.ret (OpResponse.empty, some (remote.toErr s1 e)), state := s1,
               attempts := 1 } := by
  have hdo : kv.«do» remote op s = (Outcome.ret (OpResponse.empty, some e), s1)
      ∧ op.isWrite = true := by
    rcases hfail with ⟨ht, hr⟩ | ⟨ht, hr⟩
    · refine ⟨?_, by simp [Op.isWrite, ht]⟩
      rw [do_put remote op s ht, hr]
    · refine ⟨?_, by simp [Op.isWrite, ht]⟩
      rw [do_deleteRange remote op s ht, hr]
  exact DoFrom_write_error remote op s s1 _ e fuel 0 hdo.1 hdo.2

/-- Witness for C6: a Put against the always-failing example remote is attempted once;
the call counter of the remote goes from 0 to 1 and the translated error comes back. -/
theorem Do_write_error_once_witness :
    kv.Do flakyRemote examplePut 10 0
      = some { out := Outcome.ret (OpResponse.empty, some "client: unavailable"), state := 1,
               attempts := 1 } :=
  Do_write_error_once flakyRemote examplePut 0 1 "unavailable" 9 (Or.inl ⟨rfl, rfl⟩)

/-- Claim C7: for a Range operation whose first `m` remote outcomes are non-halting
errors and whose next outcome `final` is a success or a halting error, `kv.Do` terminates
under every iteration bound of at least `m + 1`, makes exactly `m + 1` attempts and
returns that last outcome: the response on success, the error translated by `toErr` on a
halting error. Moreover, for an operation of any kind, an attempt that ends in a halting
error is the last one. -/
theorem Do_range_retries (remote : KVClient σ Err RangeReq GetResp PutResp DelResp)
    (op : Op) (s : σ) (m : Nat) (final : Except Err GetResp) (fuel : Nat)
    (ht : op.t = opType.tRange)
    (hretry : ∀ k, k < m → ∃ e,
      (remote.Range (remote.toRangeRequest op) (stateBefore remote op s k)).1 = Except.error e
      ∧ remote.isHaltErr (stateBefore remote op s (k + 1)) e = false)
    (hlast : (remote.Range (remote.toRangeRequest op) (stateBefore remote op s m)).1 = final)
    (hhalt : ∀ e, final = Except.error e →
      remote.isHaltErr (stateBefore remote op s (m + 1)) e = true)
    (hfuel : m + 1 ≤ fuel) :
    (∀ resp, final = Except.ok resp →
      kv.Do remote op fuel s
        = some { out := Outcome.ret ({ put := none, get := some resp, del := none }, none),
                 state := stateBefore remote op s (m + 1),
                 attempts := m + 1 })
    ∧ (∀ e, final = Except.error e →
      kv.Do remote op fuel s
        = some { out := Outcome.ret
                   (OpResponse.empty, some (remote.toErr (stateBefore remote op s (m + 1)) e)),
                 state := stateBefore remote op s (m + 1),
                 attempts := m + 1 })
    ∧ ∀ (op1 : Op) (t t1 : σ) (resp : OpResponse GetResp PutResp DelResp) (e : Err)
        (fuel1 done : Nat),
        kv.«do» remote op1 t = (Outcome.ret (resp, some e), t1) →
        remote.isHaltErr t1 e = true →
        kv.DoFrom remote op1 (fuel1 + 1) done t
          = some { out := Outcome.ret (resp, some (remote.toErr t1 e)), state := t1,
                   attempts := done + 1 } := by
  obtain ⟨f, rfl⟩ : ∃ f, fuel = (f + 1) + m := ⟨fuel - (m + 1), by omega⟩
  have hrun : kv.Do remote op (f + 1 + m) s
      = kv.DoFrom remote op (f + 1) m (stateBefore remote op s m) := by
    unfold kv.Do
    rw [DoFrom_retries remote op ht m s (f + 1) 0 hretry, Nat.zero_add]
  have hs : stateBefore remote op s (m + 1)
      = (kv.«do» remote op (stateBefore remote op s m)).2 := rfl
  have hdo := do_range remote op (stateBefore remote op s m) ht
  rcases hr : remote.Range (remote.toRangeRequest op) (stateBefore remote op s m) with ⟨r, s1⟩
  rw [hr] at hdo hlast
  simp only at hlast
  subst hlast
  refine ⟨?_, ?_, fun op1 t t1 resp e fuel1 done hdo1 hh =>
    DoFrom_halt remote op1 t t1 resp e fuel1 done hdo1 hh⟩
  · intro resp hresp
    subst hresp
    simp only at hdo
    rw [hrun, hs, hdo]
    exact DoFrom_ok remote op _ s1 _ f m hdo
  · intro e he
    have hh := hhalt e he
    subst he
    simp only at hdo
    rw [hs, hdo] at hh
    rw [hrun, hs, hdo]
    exact DoFrom_halt remote op _ s1 _ e f m hdo hh

/-- Witness for C7: against the example remote, whose Range fails transiently twice and
then answers, `kv.Do` makes exactly three attempts and returns the answer. -/
theorem Do_range_retries_witness :
    kv.Do flakyRemote exampleRange 7 0
      = some { out := Outcome.ret ({ put := none, get := some "kvs", del := none }, none),
               state := 3, attempts := 3 } :=
  (Do_range_retries flakyRemote exampleRange 0 2 (Except.ok "kvs") 7 rfl
    (fun k hk => by
      have hk2 : k = 0 ∨ k = 1 := by omega
      rcases hk2 with rfl | rfl
      · exact ⟨"unavailable", rfl, by decide⟩
      · exact ⟨"unavailable", rfl, by decide⟩)
    rfl (fun e he => by cases he) (by decide)).1 "kvs" rfl

/-- Claim C19: `kv.do` routes by tag and fills the matching field only. A Range calls the
remote range read and on success yields a response with only `get` set; a Put sends a
request carrying the operation's key, value, lease ID and prevKV flag and on success
yields only `put` set; a DeleteRange sends a request carrying key, range end and prevKV
and on success yields only `del` set; a remote error yields the empty response with that
error; an unrecognized tag panics without calling the remote. The calls recorded by the
recording remote show which RPC was made and with which request. -/
theorem do_routes_by_tag (remote : KVClient σ Err RangeReq GetResp PutResp DelResp) (op : Op)
    (s : σ) :
    (op.t = opType.tRange →
      (∀ resp s1, remote.Range (remote.toRangeRequest op) s = (Except.ok resp, s1) →
        kv.«do» remote op s
          = (Outcome.ret ({ put := none, get := some resp, del := none }, none), s1))
      ∧ (∀ e s1, remote.Range (remote.toRangeRequest op) s = (Except.error e, s1) →
        kv.«do» remote op s = (Outcome.ret (OpResponse.empty, some e), s1)))
    ∧ (op.t = opType.tPut →
      (∀ resp s1,
        remote.Put { Key := op.key, Value := op.val, Lease := op.leaseID, PrevKv := op.prevKV } s
          = (Except.ok resp, s1) →
        kv.«do» remote op s
          = (Outcome.ret ({ put := some resp, get := none, del := none }, none), s1))
      ∧ (∀ e s1,
        remote.Put { Key := op.key, Value := op.val, Lease := op.leaseID, PrevKv := op.prevKV } s
          = (Except.error e, s1) →
        kv.«do» remote op s = (Outcome.ret (OpResponse.empty, some e), s1)))
    ∧ (op.t = opType.tDeleteRange →
      (∀ resp s1,
        remote.DeleteRange { Key := op.key, RangeEnd := op.«end», PrevKv := op.prevKV } s
          = (Except.ok resp, s1) →
        kv.«do» remote op s
          = (Outcome.ret ({ put := none, get := none, del := some resp }, none), s1))
      ∧ (∀ e s1,
        remote.DeleteRange { Key := op.key, RangeEnd := op.«end», PrevKv := op.prevKV } s
          = (Except.error e, s1) →
        kv.«do» remote op s = (Outcome.ret (OpResponse.empty, some e), s1)))
    ∧ (op.t = opType.tOther → kv.«do» remote op s = (Outcome.panic "Unknown op", s))
    ∧ (∀ log : List Call,
        (kv.«do» recordingRemote op log).2
          = match op.t with
            | opType.tRange => log ++ [Call.range op]
            | opType.tPut =>
              log ++ [Call.put
                { Key := op.key, Value := op.val, Lease := op.leaseID, PrevKv := op.prevKV }]
            | opType.tDeleteRange =>
              log ++ [Call.deleteRange
                { Key := op.key, RangeEnd := op.«end», PrevKv := op.prevKV }]
            | opType.tOther => log) := by
  refine ⟨?_, ?_, ?_, ?_, ?_⟩
  · intro ht
    rw [do_range remote op s ht]
    exact ⟨fun resp s1 h => by rw [h], fun e s1 h => by rw [h]⟩
  · intro ht
    rw [do_put remote op s ht]
    exact ⟨fun resp s1 h => by rw [h], fun e s1 h => by rw [h]⟩
  · intro ht
    rw [do_deleteRange remote op s ht]
    exact ⟨fun resp s1 h => by rw [h], fun e s1 h => by rw [h]⟩
  · intro ht
    simp only [kv.«do», ht]
  · intro log
    cases ht : op.t
    · rw [do_range recordingRemote op log ht]; rfl
    · rw [do_put recordingRemote op log ht]; rfl
    · rw [do_deleteRange recordingRemote op log ht]; rfl
    · simp only [kv.«do», ht]

/-- Witness for C19: the example Put against the always-failing remote yields the empty
response with the remote's error. -/
theorem do_routes_by_tag_witness :
    kv.«do» flakyRemote examplePut 0 = (Outcome.ret (OpResponse.empty, some "unavailable"), 1) :=
  ((do_routes_by_tag flakyRemote examplePut 0).2.1 rfl).2 "unavailable" 1 rfl

end dispatcher

end clientv3

/-! ## Lease forwarding (`lease/leasehttp/http.go`) -/

namespace leasehttp

open clientv3 (Outcome)

/-- The handler on a POST whose body was read: the path alone picks the arm. -/
theorem ServeHTTP_post {σ : Type} (c : Codec) (l : Lessor σ) (gate : Gate) (r : Request)
    (s : σ) (b : String) (hm : r.Method = "POST") (hb : r.Body = Except.ok b) :
    ServeHTTP c l gate r s
      = if r.Path = LeasePrefix then serveRenew c l gate b s
        else if r.Path = LeaseInternalPrefix then serveTimeToLive c l gate b s
        else
          { out := Outcome.ret
              (httpError ("unknown request path " ++ c.quote r.Path) StatusBadRequest),
            lessor := s, events := [] } := by
  simp only [ServeHTTP, hm, hb, ne_eq, not_true_eq_false, if_false]

/-- The two paths are different strings. -/
theorem LeaseInternalPrefix_ne : LeaseInternalPrefix ≠ LeasePrefix := by decide

/-- Claim C8: for a POST renewal or TTL-lookup request whose body reads and parses, when
the apply-wait gate does not fire before `applyTimeout` the handler answers 408 with the
text of `ErrLeaseHTTPTimeout`, leaves the lessor state as it was, and makes no call to
`Renew` or `Lookup`: the gate is the only collaborator consulted. -/
theorem ServeHTTP_timeout {σ : Type} (c : Codec) (l : Lessor σ) (r : Request) (s : σ)
    (b : String) (hm : r.Method = "POST") (hb : r.Body = Except.ok b)
    (hwf : (r.Path = LeasePrefix ∧ ∃ q, c.unmarshalKeepAliveRequest b = Except.ok q)
      ∨ (r.Path = LeaseInternalPrefix ∧ ∃ q, c.unmarshalInternalRequest b = Except.ok q)) :
    (ServeHTTP c l Gate.timedOut r s).out
        = Outcome.ret
            { StatusCode := 408, ContentType := "text/plain; charset=utf-8",
              Body := Error.ErrLeaseHTTPTimeout.Error ++ "\n" }
    ∧ (ServeHTTP c l Gate.timedOut r s).lessor = s
    ∧ (ServeHTTP c l Gate.timedOut r s).events = [Event.waitch]
    ∧ (∀ id, Event.renew id ∉ (ServeHTTP c l Gate.timedOut r s).events
        ∧ Event.lookup id ∉ (ServeHTTP c l Gate.timedOut r s).events) := by
  have key : ServeHTTP c l Gate.timedOut r s
      = { out := Outcome.ret (httpError Error.ErrLeaseHTTPTimeout.Error StatusRequestTimeout),
          lessor := s, events := [Event.waitch] } := by
    rw [ServeHTTP_post c l Gate.timedOut r s b hm hb]
    rcases hwf with ⟨hp, q, hq⟩ | ⟨hp, q, hq⟩
    · rw [if_pos hp]
      simp only [serveRenew, hq]
    · rw [if_neg (by rw [hp]; exact LeaseInternalPrefix_ne), if_pos hp]
      simp only [serveTimeToLive, hq]
  rw [key]
  refine ⟨rfl, rfl, rfl, fun id => ⟨by simp, by simp⟩⟩

/-- Witness for C8: a renewal of lease 7 against the example lessor with the gate timed
out is answered 408 and the renewal counter stays at 0. -/
theorem ServeHTTP_timeout_witness :
    (ServeHTTP exampleCodec exampleLessor Gate.timedOut
        { Method := "POST", Path := "/leases", Body := Except.ok "renew 7" } 0).out
      = Outcome.ret
          { StatusCode := 408, ContentType := "text/plain; charset=utf-8",
            Body := "waiting for node to catch up its applied index has timed out\n" }
    ∧ (ServeHTTP exampleCodec exampleLessor Gate.timedOut
        { Method := "POST", Path := "/leases", Body := Except.ok "renew 7" } 0).lessor = 0 :=
  have h := ServeHTTP_timeout exampleCodec exampleLessor
    { Method := "POST", Path := "/leases", Body := Except.ok "renew 7" } 0 "renew 7" rfl rfl
    (Or.inl ⟨rfl, ⟨{ ID := 7 }, rfl⟩⟩)
  ⟨h.1, h.2.1⟩

/-- What `RenewHTTP` does once the request went out and a response with a readable body
came back. -/
theorem RenewHTTP_response (c : Codec) (net : Net) (id : Int) (url wire : String)
    (req0 : ClientRequest) (resp : HTTPResponse) (b : String)
    (hwire : c.marshalKeepAliveRequest { ID := id } = Except.ok wire)
    (hreq : net.NewRequest "POST" url wire = Except.ok req0)
    (hdo : net.Do { req0 with ContentType := "application/protobuf" } = Except.ok resp)
    (hbody : resp.Body = Except.ok b) :
    RenewHTTP c net id url
      = if resp.StatusCode = StatusRequestTimeout then (-1, some Error.ErrLeaseHTTPTimeout)
        else if resp.StatusCode = StatusNotFound then (-1, some Error.ErrLeaseNotFound)
        else if resp.StatusCode ≠ StatusOK then
          (-1, some (Error.errorf ("lease: unknown error(" ++ b ++ ")")))
        else
          match c.unmarshalKeepAliveResponse b with
          | Except.error err =>
            (-1, some (Error.errorf ("lease: " ++ err.Error ++ ". data = \"" ++ b ++ "\"")))
          | Except.ok lresp =>
            if lresp.ID ≠ id then (-1, some (Error.errorf "lease: renew id mismatch"))
            else (lresp.TTL, none) := by
  simp only [RenewHTTP, hwire, hreq, hdo, hbody]

/-- What `TimeToLiveHTTP` does once the request went out, a response with a readable body
came back, and the `select` took the goroutine's report. -/
theorem TimeToLiveHTTP_response (c : Codec) (net : Net) (id : Int) (keys : Bool)
    (url wire : String) (req0 : ClientRequest) (resp : HTTPResponse) (b : String)
    (hwire : c.marshalInternalRequest
      { LeaseTimeToLiveRequest := some { ID := id, Keys := keys } } = Except.ok wire)
    (hreq : net.NewRequest "POST" url wire = Except.ok req0)
    (hdo : net.Do { req0 with ContentType := "application/protobuf" } = Except.ok resp)
    (hbody : resp.Body = Except.ok b) (hstatus : resp.StatusCode = StatusOK) :
    TimeToLiveHTTP c net Race.completed id keys url
      = match c.unmarshalInternalResponse b with
        | Except.error err =>
          Outcome.ret
            { resp := none,
              err := some (Error.errorf ("lease: " ++ err.Error ++ ". data = \"" ++ b ++ "\"")),
              cancelled := false }
        | Except.ok lresp =>
          match lresp.LeaseTimeToLiveResponse with
          | none => Outcome.panic "runtime error: invalid memory address or nil pointer dereference"
          | some inner =>
            if inner.ID ≠ id then
              Outcome.ret
                { resp := none, err := some (Error.errorf "lease: renew id mismatch"),
                  cancelled := false }
            else Outcome.ret { resp := some lresp, err := none, cancelled := false } := by
  have hrt : timeToLiveRoundTrip net { req0 with ContentType := "application/protobuf" }
      = (b, none) := by
    simp [timeToLiveRoundTrip, hdo, hbody, hstatus, StatusOK, StatusRequestTimeout,
      StatusNotFound]
  simp only [TimeToLiveHTTP, hwire, hreq, hrt]

/-- Claim C9: end to end, when the renewal request is well formed, the gate is open and
`Lessor.Renew` reports `ErrLeaseNotFound`, the handler answers 404 with the text of that
error, and `RenewHTTP`, given that response by the transport, returns TTL -1 with exactly
the typed `lease.ErrLeaseNotFound`: not `ErrLeaseHTTPTimeout` and not a generic
`fmt.Errorf` error such as "lease: unknown error". -/
theorem renew_notFound_end_to_end {σ : Type} (c : Codec) (l : Lessor σ) (r : Request) (s : σ)
    (b : String) (lreq : LeaseKeepAliveRequest) (net : Net) (id : Int) (url wire : String)
    (req0 : ClientRequest)
    (hm : r.Method = "POST") (hp : r.Path = LeasePrefix) (hb : r.Body = Except.ok b)
    (hdec : c.unmarshalKeepAliveRequest b = Except.ok lreq)
    (hrenew : (l.Renew lreq.ID s).1 = Except.error Error.ErrLeaseNotFound)
    (hwire : c.marshalKeepAliveRequest { ID := id } = Except.ok wire)
    (hreq : net.NewRequest "POST" url wire = Except.ok req0)
    (hnet : ∀ resp, (ServeHTTP c l Gate.fired r s).out = Outcome.ret resp →
      net.Do { req0 with ContentType := "application/protobuf" } = Except.ok (deliver resp)) :
    (ServeHTTP c l Gate.fired r s).out
        = Outcome.ret
            { StatusCode := 404, ContentType := "text/plain; charset=utf-8",
              Body := Error.ErrLeaseNotFound.Error ++ "\n" }
    ∧ RenewHTTP c net id url = (-1, some Error.ErrLeaseNotFound)
    ∧ (RenewHTTP c net id url).2 ≠ some Error.ErrLeaseHTTPTimeout
    ∧ ∀ msg, (RenewHTTP c net id url).2 ≠ some (Error.errorf msg) := by
  have hserve : (ServeHTTP c l Gate.fired r s).out
      = Outcome.ret (httpError Error.ErrLeaseNotFound.Error StatusNotFound) := by
    rw [ServeHTTP_post c l Gate.fired r s b hm hb, if_pos hp]
    rcases hr : l.Renew lreq.ID s with ⟨res, s1⟩
    rw [hr] at hrenew
    simp only at hrenew
    subst hrenew
    simp only [serveRenew, hdec, hr, if_true]
  have hdo := hnet _ hserve
  have hclient : RenewHTTP c net id url = (-1, some Error.ErrLeaseNotFound) := by
    rw [RenewHTTP_response c net id url wire req0 _ _ hwire hreq hdo rfl]
    simp [deliver, httpError, StatusNotFound, StatusRequestTimeout]
  refine ⟨hserve, hclient, ?_, ?_⟩
  · rw [hclient]; simp
  · intro msg; rw [hclient]; simp

/-- Witness for C9: lease 9 is unknown to the example lessor; over the loopback network
`RenewHTTP` for lease 9 returns TTL -1 and the typed not-found error. -/
theorem renew_notFound_end_to_end_witness :
    RenewHTTP exampleCodec (loopback exampleCodec exampleLessor Gate.fired 0) 9 "/leases"
      = (-1, some Error.ErrLeaseNotFound) :=
  (renew_notFound_end_to_end exampleCodec exampleLessor
    { Method := "POST", Path := "/leases", Body := Except.ok "renew 9" } 0 "renew 9" { ID := 9 }
    (loopback exampleCodec exampleLessor Gate.fired 0) 9 "/leases" "renew 9"
    { Method := "POST", URL := "/leases", ContentType := "", Body := "renew 9" }
    rfl rfl rfl rfl rfl rfl rfl
    (fun resp h => by
      have h404 : (ServeHTTP exampleCodec exampleLessor Gate.fired
          { Method := "POST", Path := "/leases", Body := Except.ok "renew 9" } 0).out
          = Outcome.ret (httpError Error.ErrLeaseNotFound.Error StatusNotFound) := rfl
      rw [h404] at h
      cases h
      rfl)).2.1

/-- Claim C10: a response with status 200 whose body decodes to a message carrying a lease
ID other than the requested one is never returned as a success. `RenewHTTP` returns TTL -1
with the error "lease: renew id mismatch"; `TimeToLiveHTTP` returns a nil response with an
error, that same mismatch error when the call ran to completion and `ctx.Err()` when the
caller's context was done first. -/
theorem mismatched_id_rejected (c : Codec) (net : Net) (id : Int) (url : String) :
    (∀ (wire b : String) (req0 : ClientRequest) (resp : HTTPResponse)
        (lresp : LeaseKeepAliveResponse),
        c.marshalKeepAliveRequest { ID := id } = Except.ok wire →
        net.NewRequest "POST" url wire = Except.ok req0 →
        net.Do { req0 with ContentType := "application/protobuf" } = Except.ok resp →
        resp.StatusCode = 200 → resp.Body = Except.ok b →
        c.unmarshalKeepAliveResponse b = Except.ok lresp → lresp.ID ≠ id →
        RenewHTTP c net id url = (-1, some (Error.errorf "lease: renew id mismatch")))
    ∧ (∀ (keys : Bool) (race : Race) (wire b : String) (req0 : ClientRequest)
        (resp : HTTPResponse) (lresp : LeaseInternalResponse) (inner : LeaseTimeToLiveResponse),
        c.marshalInternalRequest
          { LeaseTimeToLiveRequest := some { ID := id, Keys := keys } } = Except.ok wire →
        net.NewRequest "POST" url wire = Except.ok req0 →
        net.Do { req0 with ContentType := "application/protobuf" } = Except.ok resp →
        resp.StatusCode = 200 → resp.Body = Except.ok b →
        c.unmarshalInternalResponse b = Except.ok lresp →
        lresp.LeaseTimeToLiveResponse = some inner → inner.ID ≠ id →
        ∃ run, TimeToLiveHTTP c net race id keys url = Outcome.ret run
          ∧ run.resp = none ∧ run.err ≠ none
          ∧ (race = Race.completed →
              run.err = some (Error.errorf "lease: renew id mismatch"))) := by
  constructor
  · intro wire b req0 resp lresp hwire hreq hdo hstatus hbody hdec hne
    rw [RenewHTTP_response c net id url wire req0 resp b hwire hreq hdo hbody, hdec]
    simp [hstatus, StatusRequestTimeout, StatusNotFound, StatusOK, hne]
  · intro keys race wire b req0 resp lresp inner hwire hreq hdo hstatus hbody hdec hinner hne
    cases race with
    | ctxDone cerr =>
      refine ⟨{ resp := none, err := some cerr, cancelled := true }, ?_, rfl, by simp, ?_⟩
      · simp only [TimeToLiveHTTP, hwire, hreq]
      · intro h; cases h
    | completed =>
      refine ⟨{ resp := none, err := some (Error.errorf "lease: renew id mismatch"),
                cancelled := false }, ?_, rfl, by simp, fun _ => rfl⟩
      rw [TimeToLiveHTTP_response c net id keys url wire req0 resp b hwire hreq hdo hbody
        hstatus, hdec]
      simp only [hinner, hne, ne_eq, not_false_eq_true, if_true]

/-- Witness for C10: asked about lease 9, the network answers 200 with the well-formed
renewal reply for lease 7; `RenewHTTP` rejects it. -/
theorem mismatched_id_rejected_witness :
    RenewHTTP exampleCodec (cannedNet { StatusCode := 200, Body := Except.ok "renewed 7 30" })
        9 "/leases"
      = (-1, some (Error.errorf "lease: renew id mismatch")) :=
  (mismatched_id_rejected exampleCodec
    (cannedNet { StatusCode := 200, Body := Except.ok "renewed 7 30" }) 9 "/leases").1
    "renew 9" "renewed 7 30"
    { Method := "POST", URL := "/leases", ContentType := "", Body := "renew 9" }
    { StatusCode := 200, Body := Except.ok "renewed 7 30" } { ID := 7, TTL := 30 }
    rfl rfl rfl rfl rfl rfl (by decide)

/-- What `TimeToLiveHTTP` does, for any status, once the request went out, a response
with a readable body came back, and the `select` took the goroutine's report. -/
theorem TimeToLiveHTTP_status (c : Codec) (net : Net) (id : Int) (keys : Bool)
    (url wire : String) (req0 : ClientRequest) (resp : HTTPResponse) (b : String)
    (hwire : c.marshalInternalRequest
      { LeaseTimeToLiveRequest := some { ID := id, Keys := keys } } = Except.ok wire)
    (hreq : net.NewRequest "POST" url wire = Except.ok req0)
    (hdo : net.Do { req0 with ContentType := "application/protobuf" } = Except.ok resp)
    (hbody : resp.Body = Except.ok b) :
    TimeToLiveHTTP c net Race.completed id keys url
      = if resp.StatusCode = StatusRequestTimeout then
          Outcome.ret { resp := none, err := some Error.ErrLeaseHTTPTimeout, cancelled := false }
        else if resp.StatusCode = StatusNotFound then
          Outcome.ret { resp := none, err := some Error.ErrLeaseNotFound, cancelled := false }
        else if resp.StatusCode ≠ StatusOK then
          Outcome.ret
            { resp := none, err := some (Error.errorf ("lease: unknown error(" ++ b ++ ")")),
              cancelled := false }
        else
          match c.unmarshalInternalResponse b with
          | Except.error err =>
            Outcome.ret
              { resp := none,
                err := some (Error.errorf ("lease: " ++ err.Error ++ ". data = \"" ++ b ++ "\"")),
                cancelled := false }
          | Except.ok lresp =>
            match lresp.LeaseTimeToLiveResponse with
            | none => Outcome.panic "runtime error: invalid memory address or nil pointer dereference"
            | some inner =>
              if inner.ID ≠ id then
                Outcome.ret
                  { resp := none, err := some (Error.errorf "lease: renew id mismatch"),
                    cancelled := false }
              else Outcome.ret { resp := some lresp, err := none, cancelled := false } := by
  have hrt : timeToLiveRoundTrip net { req0 with ContentType := "application/protobuf" }
      = if resp.StatusCode = StatusRequestTimeout then (b, some Error.ErrLeaseHTTPTimeout)
        else if resp.StatusCode = StatusNotFound then (b, some Error.ErrLeaseNotFound)
        else if resp.StatusCode ≠ StatusOK then
          (b, some (Error.errorf ("lease: unknown error(" ++ b ++ ")")))
        else (b, none) := by
    simp only [timeToLiveRoundTrip, hdo, hbody]
  simp only [TimeToLiveHTTP, hwire, hreq, hrt]
  by_cases h408 : resp.StatusCode = StatusRequestTimeout
  · simp only [if_pos h408]
  · by_cases h404 : resp.StatusCode = StatusNotFound
    · simp only [if_neg h408, if_pos h404]
    · by_cases h200 : resp.StatusCode = StatusOK
      · simp only [if_neg h408, if_neg h404, if_neg (not_not.mpr h200)]
      · simp only [if_neg h408, if_neg h404, if_pos (show resp.StatusCode ≠ StatusOK from h200)]

/-- Claim C11: for a response received without transport error, with status `s` and body
`b`, both clients map the status by the same closed table: 408 gives `ErrLeaseHTTPTimeout`,
404 gives `lease.ErrLeaseNotFound`, every other status different from 200 gives the
generic error whose text is "lease: unknown error(" followed by `b` and ")", and in none
of these cases is the body decoded (the result is the same whatever the decoder is); only
status 200 goes on to decode the body. `RenewHTTP` returns TTL -1 and `TimeToLiveHTTP` a
nil response with each of these errors. -/
theorem status_mapping (c : Codec) (net : Net) (id : Int) (url : String) :
    (∀ (wire b : String) (req0 : ClientRequest) (resp : HTTPResponse),
        c.marshalKeepAliveRequest { ID := id } = Except.ok wire →
        net.NewRequest "POST" url wire = Except.ok req0 →
        net.Do { req0 with ContentType := "application/protobuf" } = Except.ok resp →
        resp.Body = Except.ok b →
        (resp.StatusCode = 408 → RenewHTTP c net id url = (-1, some Error.ErrLeaseHTTPTimeout))
        ∧ (resp.StatusCode = 404 → RenewHTTP c net id url = (-1, some Error.ErrLeaseNotFound))
        ∧ (resp.StatusCode ≠ 408 → resp.StatusCode ≠ 404 → resp.StatusCode ≠ 200 →
            RenewHTTP c net id url
                = (-1, some (Error.errorf ("lease: unknown error(" ++ b ++ ")")))
            ∧ (Error.errorf ("lease: unknown error(" ++ b ++ ")")).Error
                = "lease: unknown error(" ++ b ++ ")")
        ∧ (resp.StatusCode ≠ 200 → ∀ u,
            RenewHTTP { c with unmarshalKeepAliveResponse := u } net id url
              = RenewHTTP c net id url)
        ∧ (resp.StatusCode = 200 →
            RenewHTTP c net id url
              = match c.unmarshalKeepAliveResponse b with
                | Except.error err =>
                  (-1, some (Error.errorf ("lease: " ++ err.Error ++ ". data = \"" ++ b ++ "\"")))
                | Except.ok lresp =>
                  if lresp.ID ≠ id then (-1, some (Error.errorf "lease: renew id mismatch"))
                  else (lresp.TTL, none)))
    ∧ (∀ (keys : Bool) (wire b : String) (req0 : ClientRequest) (resp : HTTPResponse),
        c.marshalInternalRequest
          { LeaseTimeToLiveRequest := some { ID := id, Keys := keys } } = Except.ok wire →
        net.NewRequest "POST" url wire = Except.ok req0 →
        net.Do { req0 with ContentType := "application/protobuf" } = Except.ok resp →
        resp.Body = Except.ok b →
        (resp.StatusCode = 408 →
          TimeToLiveHTTP c net Race.completed id keys url
            = Outcome.ret
                { resp := none, err := some Error.ErrLeaseHTTPTimeout, cancelled := false })
        ∧ (resp.StatusCode = 404 →
          TimeToLiveHTTP c net Race.completed id keys url
            = Outcome.ret
                { resp := none, err := some Error.ErrLeaseNotFound, cancelled := false })
        ∧ (resp.StatusCode ≠ 408 → resp.StatusCode ≠ 404 → resp.StatusCode ≠ 200 →
          TimeToLiveHTTP c net Race.completed id keys url
            = Outcome.ret
                { resp := none,
                  err := some (Error.errorf ("lease: unknown error(" ++ b ++ ")")),
                  cancelled := false })
        ∧ (resp.StatusCode ≠ 200 → ∀ u,
            TimeToLiveHTTP { c with unmarshalInternalResponse := u } net Race.completed id keys url
              = TimeToLiveHTTP c net Race.completed id keys url)
        ∧ (resp.StatusCode = 200 →
            TimeToLiveHTTP c net Race.completed id keys url
              = match c.unmarshalInternalResponse b with
                | Except.error err =>
                  Outcome.ret
                    { resp := none,
                      err := some
                        (Error.errorf ("lease: " ++ err.Error ++ ". data = \"" ++ b ++ "\"")),
                      cancelled := false }
                | Except.ok lresp =>
                  match lresp.LeaseTimeToLiveResponse with
                  | none => Outcome.panic "runtime error: invalid memory address or nil pointer dereference"
                  | some inner =>
                    if inner.ID ≠ id then
                      Outcome.ret
                        { resp := none, err := some (Error.errorf "lease: renew id mismatch"),
                          cancelled := false }
                    else Outcome.ret { resp := some lresp, err := none, cancelled := false })) := by
  constructor
  · intro wire b req0 resp hwire hreq hdo hbody
    have key := RenewHTTP_response c net id url wire req0 resp b hwire hreq hdo hbody
    refine ⟨?_, ?_, ?_, ?_, ?_⟩
    · intro hs
      rw [key]; simp [hs, StatusRequestTimeout]
    · intro hs
      rw [key]; simp [hs, StatusRequestTimeout, StatusNotFound]
    · intro h1 h2 h3
      refine ⟨?_, rfl⟩
      rw [key]; simp [h1, h2, h3, StatusRequestTimeout, StatusNotFound, StatusOK]
    · intro h3 u
      have key2 := RenewHTTP_response { c with unmarshalKeepAliveResponse := u } net id url wire
        req0 resp b hwire hreq hdo hbody
      rw [key, key2]
      by_cases h1 : resp.StatusCode = StatusRequestTimeout
      · simp [h1]
      · by_cases h2 : resp.StatusCode = StatusNotFound
        · simp [h1, h2]
        · have h3' : resp.StatusCode ≠ StatusOK := h3
          simp [h1, h2, h3']
    · intro hs
      rw [key]; simp [hs, StatusRequestTimeout, StatusNotFound, StatusOK]
  · intro keys wire b req0 resp hwire hreq hdo hbody
    have key := TimeToLiveHTTP_status c net id keys url wire req0 resp b hwire hreq hdo hbody
    refine ⟨?_, ?_, ?_, ?_, ?_⟩
    · intro hs
      rw [key]; simp [hs, StatusRequestTimeout]
    · intro hs
      rw [key]; simp [hs, StatusRequestTimeout, StatusNotFound]
    · intro h1 h2 h3
      rw [key]; simp [h1, h2, h3, StatusRequestTimeout, StatusNotFound, StatusOK]
    · intro h3 u
      have key2 := TimeToLiveHTTP_status { c with unmarshalInternalResponse := u } net id keys url
        wire req0 resp b hwire hreq hdo hbody
      rw [key, key2]
      by_cases h1 : resp.StatusCode = StatusRequestTimeout
      · simp [h1]
      · by_cases h2 : resp.StatusCode = StatusNotFound
        · simp [h1, h2]
        · have h3' : resp.StatusCode ≠ StatusOK := h3
          simp [h1, h2, h3']
    · intro hs
      rw [key]; simp [hs, StatusRequestTimeout, StatusNotFound, StatusOK]

/-- Witness for C11: a 503 with body "overloaded" makes `RenewHTTP` return the generic
error that carries the body. -/
theorem status_mapping_witness :
    RenewHTTP exampleCodec (cannedNet { StatusCode := 503, Body := Except.ok "overloaded" })
        7 "/leases"
      = (-1, some (Error.errorf "lease: unknown error(overloaded)")) :=
  ((status_mapping exampleCodec
    (cannedNet { StatusCode := 503, Body := Except.ok "overloaded" }) 7 "/leases").1
    "renew 7" "overloaded"
    { Method := "POST", URL := "/leases", ContentType := "", Body := "renew 7" }
    { StatusCode := 503, Body := Except.ok "overloaded" }
    rfl rfl rfl rfl).2.2.1 (by decide) (by decide) (by decide) |>.1

/-- The renewal arm on a body that does not parse. -/
theorem serveRenew_undecodable {σ : Type} (c : Codec) (l : Lessor σ) (gate : Gate) (b : String)
    (s : σ) (e : Error) (hU : c.unmarshalKeepAliveRequest b = Except.error e) :
    serveRenew c l gate b s
      = { out := Outcome.ret (httpError "error unmarshalling request" StatusBadRequest),
          lessor := s, events := [] } := by
  simp only [serveRenew, hU]

/-- The renewal arm when the gate times out. -/
theorem serveRenew_timedOut {σ : Type} (c : Codec) (l : Lessor σ) (b : String) (s : σ)
    (q : LeaseKeepAliveRequest) (hU : c.unmarshalKeepAliveRequest b = Except.ok q) :
    serveRenew c l Gate.timedOut b s
      = { out := Outcome.ret (httpError Error.ErrLeaseHTTPTimeout.Error StatusRequestTimeout),
          lessor := s, events := [Event.waitch] } := by
  simp only [serveRenew, hU]

/-- The renewal arm when the gate fires and `Renew` fails. -/
theorem serveRenew_renew_error {σ : Type} (c : Codec) (l : Lessor σ) (b : String) (s s1 : σ)
    (q : LeaseKeepAliveRequest) (err : Error)
    (hU : c.unmarshalKeepAliveRequest b = Except.ok q)
    (hR : l.Renew q.ID s = (Except.error err, s1)) :
    serveRenew c l Gate.fired b s
      = { out := Outcome.ret (httpError err.Error
            (if err = Error.ErrLeaseNotFound then StatusNotFound else StatusBadRequest)),
          lessor := s1, events := [Event.waitch, Event.renew q.ID] } := by
  by_cases h : err = Error.ErrLeaseNotFound
  · simp only [serveRenew, hU, hR, h, if_true]
  · simp only [serveRenew, hU, hR, h, if_false]

/-- The renewal arm when the gate fires and `Renew` succeeds. -/
theorem serveRenew_renew_ok {σ : Type} (c : Codec) (l : Lessor σ) (b : String) (s s1 : σ)
    (q : LeaseKeepAliveRequest) (ttl : Int)
    (hU : c.unmarshalKeepAliveRequest b = Except.ok q)
    (hR : l.Renew q.ID s = (Except.ok ttl, s1)) :
    serveRenew c l Gate.fired b s
      = { out :=
            match c.marshalKeepAliveResponse { ID := q.ID, TTL := ttl } with
            | Except.error err => Outcome.ret (httpError err.Error StatusInternalServerError)
            | Except.ok v =>
              Outcome.ret
                { StatusCode := StatusOK, ContentType := "application/protobuf", Body := v },
          lessor := s1, events := [Event.waitch, Event.renew q.ID] } := by
  simp only [serveRenew, hU, hR]
  cases c.marshalKeepAliveResponse { ID := q.ID, TTL := ttl } <;> rfl

/-- The TTL-lookup arm on a body that does not parse. -/
theorem serveTimeToLive_undecodable {σ : Type} (c : Codec) (l : Lessor σ) (gate : Gate)
    (b : String) (s : σ) (e : Error) (hU : c.unmarshalInternalRequest b = Except.error e) :
    serveTimeToLive c l gate b s
      = { out := Outcome.ret (httpError "error unmarshalling request" StatusBadRequest),
          lessor := s, events := [] } := by
  simp only [serveTimeToLive, hU]

/-- The TTL-lookup arm when the gate times out. -/
theorem serveTimeToLive_timedOut {σ : Type} (c : Codec) (l : Lessor σ) (b : String) (s : σ)
    (q : LeaseInternalRequest) (hU : c.unmarshalInternalRequest b = Except.ok q) :
    serveTimeToLive c l Gate.timedOut b s
      = { out := Outcome.ret (httpError Error.ErrLeaseHTTPTimeout.Error StatusRequestTimeout),
          lessor := s, events := [Event.waitch] } := by
  simp only [serveTimeToLive, hU]

/-- The TTL-lookup arm when the gate fires and the request has no inner message. -/
theorem serveTimeToLive_nil {σ : Type} (c : Codec) (l : Lessor σ) (b : String) (s : σ)
    (q : LeaseInternalRequest) (hU : c.unmarshalInternalRequest b = Except.ok q)
    (hq : q.LeaseTimeToLiveRequest = none) :
    serveTimeToLive c l Gate.fired b s
      = { out := Outcome.panic "runtime error: invalid memory address or nil pointer dereference",
          lessor := s, events := [Event.waitch] } := by
  simp only [serveTimeToLive, hU, hq]

/-- The TTL-lookup arm when the gate fires and the lease is absent. -/
theorem serveTimeToLive_absent {σ : Type} (c : Codec) (l : Lessor σ) (b : String) (s : σ)
    (q : LeaseInternalRequest) (treq : LeaseTimeToLiveRequest)
    (hU : c.unmarshalInternalRequest b = Except.ok q)
    (hq : q.LeaseTimeToLiveRequest = some treq) (hL : l.Lookup treq.ID s = none) :
    serveTimeToLive c l Gate.fired b s
      = { out := Outcome.ret (httpError Error.ErrLeaseNotFound.Error StatusNotFound),
          lessor := s, events := [Event.waitch, Event.lookup treq.ID] } := by
  simp only [serveTimeToLive, hU, hq, hL]

/-- The TTL-lookup arm when the gate fires and the lease is there: the response message
built and what becomes of it. -/
theorem serveTimeToLive_present {σ : Type} (c : Codec) (l : Lessor σ) (b : String) (s : σ)
    (q : LeaseInternalRequest) (treq : LeaseTimeToLiveRequest) (le : Lease)
    (hU : c.unmarshalInternalRequest b = Except.ok q)
    (hq : q.LeaseTimeToLiveRequest = some treq) (hL : l.Lookup treq.ID s = some le) :
    serveTimeToLive c l Gate.fired b s
      = { out :=
            match c.marshalInternalResponse
              { LeaseTimeToLiveResponse := some
                  { Header := some {}, ID := treq.ID, TTL := le.remainingSeconds,
                    GrantedTTL := le.ttl, Keys := if treq.Keys then le.keys else [] } } with
            | Except.error err => Outcome.ret (httpError err.Error StatusInternalServerError)
            | Except.ok v =>
              Outcome.ret
                { StatusCode := StatusOK, ContentType := "application/protobuf", Body := v },
          lessor := s, events := [Event.waitch, Event.lookup treq.ID] } := by
  simp only [serveTimeToLive, hU, hq, hL, List.map_id']
  cases hk : treq.Keys <;> simp only [if_true, if_false, Bool.false_eq_true] <;>
    generalize c.marshalInternalResponse _ = m <;> cases m <;> rfl

/-- The handler on a POST whose body cannot be read. -/
theorem ServeHTTP_unreadable {σ : Type} (c : Codec) (l : Lessor σ) (gate : Gate) (r : Request)
    (s : σ) (e : Error) (hm : r.Method = "POST") (hb : r.Body = Except.error e) :
    ServeHTTP c l gate r s
      = { out := Outcome.ret (httpError "error reading body" StatusBadRequest),
          lessor := s, events := [] } := by
  simp only [ServeHTTP, hm, hb, ne_eq, not_true_eq_false, if_false]

/-- The calls made by the renewal arm: none when the body does not parse, the gate alone
when it times out, the gate and then `Renew` when it fires. -/
theorem serveRenew_events {σ : Type} (c : Codec) (l : Lessor σ) (gate : Gate) (b : String)
    (s : σ) :
    ((∃ e, c.unmarshalKeepAliveRequest b = Except.error e)
        ∧ (serveRenew c l gate b s).events = [])
    ∨ ((∃ q, c.unmarshalKeepAliveRequest b = Except.ok q) ∧ gate = Gate.timedOut
        ∧ (serveRenew c l gate b s).events = [Event.waitch])
    ∨ (∃ q, c.unmarshalKeepAliveRequest b = Except.ok q ∧ gate = Gate.fired
        ∧ (serveRenew c l gate b s).events = [Event.waitch, Event.renew q.ID]) := by
  cases hU : c.unmarshalKeepAliveRequest b with
  | error e =>
    left
    exact ⟨⟨e, rfl⟩, by rw [serveRenew_undecodable c l gate b s e hU]⟩
  | ok q =>
    right
    cases gate with
    | timedOut =>
      left
      exact ⟨⟨q, rfl⟩, rfl, by rw [serveRenew_timedOut c l b s q hU]⟩
    | fired =>
      right
      refine ⟨q, rfl, rfl, ?_⟩
      rcases hR : l.Renew q.ID s with ⟨res, s1⟩
      cases res with
      | error err => rw [serveRenew_renew_error c l b s s1 q err hU hR]
      | ok ttl => rw [serveRenew_renew_ok c l b s s1 q ttl hU hR]

/-- The calls made by the TTL-lookup arm: none when the body does not parse, the gate
alone when it times out or when the request has no inner message, the gate and then
`Lookup` otherwise. -/
theorem serveTimeToLive_events {σ : Type} (c : Codec) (l : Lessor σ) (gate : Gate) (b : String)
    (s : σ) :
    ((∃ e, c.unmarshalInternalRequest b = Except.error e)
        ∧ (serveTimeToLive c l gate b s).events = [])
    ∨ ((∃ q, c.unmarshalInternalRequest b = Except.ok q)
        ∧ (serveTimeToLive c l gate b s).events = [Event.waitch])
    ∨ (∃ q treq, c.unmarshalInternalRequest b = Except.ok q
        ∧ q.LeaseTimeToLiveRequest = some treq ∧ gate = Gate.fired
        ∧ (serveTimeToLive c l gate b s).events = [Event.waitch, Event.lookup treq.ID]) := by
  cases hU : c.unmarshalInternalRequest b with
  | error e =>
    left
    exact ⟨⟨e, rfl⟩, by rw [serveTimeToLive_undecodable c l gate b s e hU]⟩
  | ok q =>
    right
    cases gate with
    | timedOut =>
      left
      exact ⟨⟨q, rfl⟩, by rw [serveTimeToLive_timedOut c l b s q hU]⟩
    | fired =>
      cases hq : q.LeaseTimeToLiveRequest with
      | none =>
        left
        exact ⟨⟨q, rfl⟩, by rw [serveTimeToLive_nil c l b s q hU hq]⟩
      | some treq =>
        right
        refine ⟨q, treq, rfl, hq, rfl, ?_⟩
        cases hL : l.Lookup treq.ID s with
        | none => rw [serveTimeToLive_absent c l b s q treq hU hq hL]
        | some le => rw [serveTimeToLive_present c l b s q treq le hU hq hL]

/-- Claim C12: a POST whose body does not parse for its path (or cannot be read), or
whose path is neither `/leases` nor `/leases/internal`, is answered 400 with no call to
the gate or the lessor and the lessor state unchanged. For every POST the calls come in
the order Decode, Gate, Execute: the gate is consulted only after the body parsed for a
known path, and `Renew` or `Lookup` is called only after the gate was consulted and
fired. -/
theorem ServeHTTP_decode_gate_execute {σ : Type} (c : Codec) (l : Lessor σ) (gate : Gate)
    (r : Request) (s : σ) (hm : r.Method = "POST") :
    (((∃ e, r.Body = Except.error e)
        ∨ (∃ b e, r.Body = Except.ok b ∧ r.Path = LeasePrefix
            ∧ c.unmarshalKeepAliveRequest b = Except.error e)
        ∨ (∃ b e, r.Body = Except.ok b ∧ r.Path = LeaseInternalPrefix
            ∧ c.unmarshalInternalRequest b = Except.error e)
        ∨ (r.Path ≠ LeasePrefix ∧ r.Path ≠ LeaseInternalPrefix)) →
      (∃ resp, (ServeHTTP c l gate r s).out = Outcome.ret resp ∧ resp.StatusCode = 400)
      ∧ (ServeHTTP c l gate r s).lessor = s
      ∧ (ServeHTTP c l gate r s).events = [])
    ∧ ((ServeHTTP c l gate r s).events = []
        ∨ (ServeHTTP c l gate r s).events = [Event.waitch]
        ∨ ∃ id, gate = Gate.fired
            ∧ ((ServeHTTP c l gate r s).events = [Event.waitch, Event.renew id]
              ∨ (ServeHTTP c l gate r s).events = [Event.waitch, Event.lookup id]))
    ∧ (Event.waitch ∈ (ServeHTTP c l gate r s).events →
        ∃ b, r.Body = Except.ok b
          ∧ ((r.Path = LeasePrefix ∧ ∃ q, c.unmarshalKeepAliveRequest b = Except.ok q)
            ∨ (r.Path = LeaseInternalPrefix ∧ ∃ q, c.unmarshalInternalRequest b = Except.ok q))) := by
  have h400 : ∀ msg, ∃ resp, Outcome.ret (httpError msg StatusBadRequest) = Outcome.ret resp
      ∧ resp.StatusCode = 400 := fun msg => ⟨_, rfl, rfl⟩
  refine ⟨?_, ?_⟩
  · rintro (⟨e, he⟩ | ⟨b, e, hb, hp, hu⟩ | ⟨b, e, hb, hp, hu⟩ | ⟨hp1, hp2⟩)
    · rw [ServeHTTP_unreadable c l gate r s e hm he]
      exact ⟨h400 _, rfl, rfl⟩
    · rw [ServeHTTP_post c l gate r s b hm hb, if_pos hp, serveRenew_undecodable c l gate b s e hu]
      exact ⟨h400 _, rfl, rfl⟩
    · rw [ServeHTTP_post c l gate r s b hm hb, if_neg (by rw [hp]; exact LeaseInternalPrefix_ne),
        if_pos hp, serveTimeToLive_undecodable c l gate b s e hu]
      exact ⟨h400 _, rfl, rfl⟩
    · cases hb : r.Body with
      | error e =>
        rw [ServeHTTP_unreadable c l gate r s e hm hb]
        exact ⟨h400 _, rfl, rfl⟩
      | ok b =>
        rw [ServeHTTP_post c l gate r s b hm hb, if_neg hp1, if_neg hp2]
        exact ⟨h400 _, rfl, rfl⟩
  · cases hb : r.Body with
    | error e =>
      rw [ServeHTTP_unreadable c l gate r s e hm hb]
      exact ⟨Or.inl rfl, fun h => by simp at h⟩
    | ok b =>
      rw [ServeHTTP_post c l gate r s b hm hb]
      by_cases hp1 : r.Path = LeasePrefix
      · rw [if_pos hp1]
        rcases serveRenew_events c l gate b s with ⟨_, hev⟩ | ⟨hq, _, hev⟩ | ⟨q, hq, hg, hev⟩
        · rw [hev]
          exact ⟨Or.inl rfl, fun h => by simp at h⟩
        · rw [hev]
          exact ⟨Or.inr (Or.inl rfl), fun _ => ⟨b, rfl, Or.inl ⟨hp1, hq⟩⟩⟩
        · rw [hev]
          exact ⟨Or.inr (Or.inr ⟨q.ID, hg, Or.inl rfl⟩), fun _ => ⟨b, rfl, Or.inl ⟨hp1, q, hq⟩⟩⟩
      · rw [if_neg hp1]
        by_cases hp2 : r.Path = LeaseInternalPrefix
        · rw [if_pos hp2]
          rcases serveTimeToLive_events c l gate b s with
            ⟨_, hev⟩ | ⟨hq, hev⟩ | ⟨q, treq, hq, _, hg, hev⟩
          · rw [hev]
            exact ⟨Or.inl rfl, fun h => by simp at h⟩
          · rw [hev]
            exact ⟨Or.inr (Or.inl rfl), fun _ => ⟨b, rfl, Or.inr ⟨hp2, hq⟩⟩⟩
          · rw [hev]
            exact ⟨Or.inr (Or.inr ⟨treq.ID, hg, Or.inr rfl⟩),
              fun _ => ⟨b, rfl, Or.inr ⟨hp2, q, hq⟩⟩⟩
        · rw [if_neg hp2]
          exact ⟨Or.inl rfl, fun h => by simp at h⟩

/-- Witness for C12: a POST to `/leases` whose body does not parse is answered 400 and no
call is made, although the gate would have fired. -/
theorem ServeHTTP_decode_gate_execute_witness :
    (∃ resp, (ServeHTTP exampleCodec exampleLessor Gate.fired
        { Method := "POST", Path := "/leases", Body := Except.ok "garbage" } 0).out
          = Outcome.ret resp ∧ resp.StatusCode = 400)
    ∧ (ServeHTTP exampleCodec exampleLessor Gate.fired
        { Method := "POST", Path := "/leases", Body := Except.ok "garbage" } 0).lessor = 0
    ∧ (ServeHTTP exampleCodec exampleLessor Gate.fired
        { Method := "POST", Path := "/leases", Body := Except.ok "garbage" } 0).events = [] :=
  (ServeHTTP_decode_gate_execute exampleCodec exampleLessor Gate.fired
    { Method := "POST", Path := "/leases", Body := Except.ok "garbage" } 0 rfl).1
    (Or.inr (Or.inl ⟨"garbage", Error.other 2 "cannot decode", rfl, rfl, rfl⟩))

/-- Claim C16: a request whose method is not POST, whatever its path and body and
whatever the gate would do, is answered 405 with no call to the gate or the lessor and
the lessor state unchanged. -/
theorem ServeHTTP_method_not_allowed {σ : Type} (c : Codec) (l : Lessor σ) (gate : Gate)
    (r : Request) (s : σ) (hm : r.Method ≠ "POST") :
    (ServeHTTP c l gate r s).out
        = Outcome.ret
            { StatusCode := 405, ContentType := "text/plain; charset=utf-8",
              Body := "Method Not Allowed\n" }
    ∧ (ServeHTTP c l gate r s).lessor = s
    ∧ (ServeHTTP c l gate r s).events = [] := by
  have key : ServeHTTP c l gate r s
      = { out := Outcome.ret (httpError "Method Not Allowed" StatusMethodNotAllowed),
          lessor := s, events := [] } := by
    simp only [ServeHTTP, hm, ne_eq, not_false_eq_true, if_true]
  rw [key]
  exact ⟨rfl, rfl, rfl⟩

/-- Witness for C16: a GET of `/leases` with a well-formed renewal body is answered 405
and the example lessor is not touched. -/
theorem ServeHTTP_method_not_allowed_witness :
    (ServeHTTP exampleCodec exampleLessor Gate.fired
        { Method := "GET", Path := "/leases", Body := Except.ok "renew 7" } 0).out
      = Outcome.ret
          { StatusCode := 405, ContentType := "text/plain; charset=utf-8",
            Body := "Method Not Allowed\n" }
    ∧ (ServeHTTP exampleCodec exampleLessor Gate.fired
        { Method := "GET", Path := "/leases", Body := Except.ok "renew 7" } 0).lessor = 0
    ∧ (ServeHTTP exampleCodec exampleLessor Gate.fired
        { Method := "GET", Path := "/leases", Body := Except.ok "renew 7" } 0).events = [] :=
  ServeHTTP_method_not_allowed exampleCodec exampleLessor Gate.fired
    { Method := "GET", Path := "/leases", Body := Except.ok "renew 7" } 0 (by decide)

/-- The TTL-lookup arm on a well-formed request with the gate open: an absent lease is
answered 404; for a present lease the handler builds a response whose lease ID is the
request's ID, whose GrantedTTL is the lease's TTL and whose key list is the lease's keys
when the request's keys flag is set and empty when it is not, and answers according to
what the encoder makes of that response. The lessor state is unchanged either way. -/
theorem lookup_response {σ : Type} (c : Codec) (l : Lessor σ) (r : Request) (s : σ)
    (b : String) (q : LeaseInternalRequest) (treq : LeaseTimeToLiveRequest)
    (hm : r.Method = "POST") (hp : r.Path = LeaseInternalPrefix) (hb : r.Body = Except.ok b)
    (hU : c.unmarshalInternalRequest b = Except.ok q)
    (hq : q.LeaseTimeToLiveRequest = some treq) :
    (l.Lookup treq.ID s = none →
      (ServeHTTP c l Gate.fired r s).out
        = Outcome.ret
            { StatusCode := 404, ContentType := "text/plain; charset=utf-8",
              Body := Error.ErrLeaseNotFound.Error ++ "\n" })
    ∧ (∀ le, l.Lookup treq.ID s = some le →
        ∃ inner : LeaseTimeToLiveResponse,
          inner.ID = treq.ID ∧ inner.GrantedTTL = le.ttl ∧ inner.TTL = le.remainingSeconds
          ∧ (treq.Keys = true → inner.Keys = le.keys)
          ∧ (treq.Keys = false → inner.Keys = [])
          ∧ (∀ v, c.marshalInternalResponse { LeaseTimeToLiveResponse := some inner }
                = Except.ok v →
              (ServeHTTP c l Gate.fired r s).out
                = Outcome.ret
                    { StatusCode := 200, ContentType := "application/protobuf", Body := v })
          ∧ (∀ e, c.marshalInternalResponse { LeaseTimeToLiveResponse := some inner }
                = Except.error e →
              (ServeHTTP c l Gate.fired r s).out
                = Outcome.ret
                    { StatusCode := 500, ContentType := "text/plain; charset=utf-8",
                      Body := e.Error ++ "\n" }))
    ∧ (ServeHTTP c l Gate.fired r s).lessor = s := by
  have hS : ServeHTTP c l Gate.fired r s = serveTimeToLive c l Gate.fired b s := by
    rw [ServeHTTP_post c l Gate.fired r s b hm hb,
      if_neg (by rw [hp]; exact LeaseInternalPrefix_ne), if_pos hp]
  rw [hS]
  refine ⟨?_, ?_, ?_⟩
  · intro hL
    rw [serveTimeToLive_absent c l b s q treq hU hq hL]
    rfl
  · intro le hL
    rw [serveTimeToLive_present c l b s q treq le hU hq hL]
    refine ⟨{ Header := some {}, ID := treq.ID, TTL := le.remainingSeconds,
              GrantedTTL := le.ttl, Keys := if treq.Keys then le.keys else [] },
      rfl, rfl, rfl, ?_, ?_, ?_, ?_⟩
    · intro hk; simp only [hk, if_true]
    · intro hk; simp only [hk, if_false, Bool.false_eq_true]
    · intro v hv; simp only [hv]; rfl
    · intro e he; simp only [he]; rfl
  · cases hL : l.Lookup treq.ID s with
    | none => rw [serveTimeToLive_absent c l b s q treq hU hq hL]
    | some le => rw [serveTimeToLive_present c l b s q treq le hU hq hL]

/-- Claim C13: for a well-formed TTL-lookup request with the gate open, over a wire
encoder that encodes every response: if `Lessor.Lookup(id)` is absent the handler answers
404; otherwise it answers with success, and the body is the encoding of a response whose
lease ID equals the request's ID, whose GrantedTTL equals the lease's TTL, and whose key
list is exactly the lease's attached keys in the same order when the request's keys flag
is set and is empty when the flag is not set. The lessor state is unchanged. -/
theorem lookup_answer {σ : Type} (c : Codec) (l : Lessor σ) (r : Request) (s : σ)
    (b : String) (q : LeaseInternalRequest) (treq : LeaseTimeToLiveRequest)
    (hm : r.Method = "POST") (hp : r.Path = LeaseInternalPrefix) (hb : r.Body = Except.ok b)
    (hU : c.unmarshalInternalRequest b = Except.ok q)
    (hq : q.LeaseTimeToLiveRequest = some treq)
    (henc : ∀ m, ∃ v, c.marshalInternalResponse m = Except.ok v) :
    (l.Lookup treq.ID s = none →
      (ServeHTTP c l Gate.fired r s).out
        = Outcome.ret
            { StatusCode := 404, ContentType := "text/plain; charset=utf-8",
              Body := Error.ErrLeaseNotFound.Error ++ "\n" })
    ∧ (∀ le, l.Lookup treq.ID s = some le →
        ∃ (inner : LeaseTimeToLiveResponse) (v : String),
          inner.ID = treq.ID ∧ inner.GrantedTTL = le.ttl
          ∧ (treq.Keys = true → inner.Keys = le.keys)
          ∧ (treq.Keys = false → inner.Keys = [])
          ∧ c.marshalInternalResponse { LeaseTimeToLiveResponse := some inner } = Except.ok v
          ∧ (ServeHTTP c l Gate.fired r s).out
              = Outcome.ret
                  { StatusCode := 200, ContentType := "application/protobuf", Body := v })
    ∧ (ServeHTTP c l Gate.fired r s).lessor = s := by
  obtain ⟨habsent, hpresent, hstate⟩ := lookup_response c l r s b q treq hm hp hb hU hq
  refine ⟨habsent, ?_, hstate⟩
  intro le hL
  obtain ⟨inner, hid, hgranted, _, hkeys, hnokeys, hok, _⟩ := hpresent le hL
  obtain ⟨v, hv⟩ := henc { LeaseTimeToLiveResponse := some inner }
  exact ⟨inner, v, hid, hgranted, hkeys, hnokeys, hv, hok v hv⟩

/-- Witness for C13: the lookup of lease 7 with its keys at the example lessor is answered
with success, and the response encoded carries ID 7, granted TTL 30 and the keys `a`, `b`
in that order. -/
theorem lookup_answer_witness :
    ∃ (inner : LeaseTimeToLiveResponse) (v : String),
      inner.ID = 7 ∧ inner.GrantedTTL = 30 ∧ inner.Keys = ["a", "b"]
      ∧ (ServeHTTP totalEncoder exampleLessor Gate.fired
          { Method := "POST", Path := "/leases/internal", Body := Except.ok "ttl 7 keys" } 0).out
        = Outcome.ret { StatusCode := 200, ContentType := "application/protobuf", Body := v } :=
  match (lookup_answer totalEncoder exampleLessor
      { Method := "POST", Path := "/leases/internal", Body := Except.ok "ttl 7 keys" } 0
      "ttl 7 keys" { LeaseTimeToLiveRequest := some { ID := 7, Keys := true } }
      { ID := 7, Keys := true } rfl rfl rfl rfl rfl (fun _ => ⟨_, rfl⟩)).2.1
      { ttl := 30, remainingSeconds := 12, keys := ["a", "b"] } rfl with
  | ⟨inner, v, hid, hgranted, hkeys, _, _, hout⟩ => ⟨inner, v, hid, hgranted, hkeys rfl, hout⟩

/-- Claim C14: end to end, assuming decoding undoes encoding of the renew messages: when
the request for lease `id` reaches the handler as encoded, the gate fires and
`Lessor.Renew(id)` returns `ttl` without error, the handler's success response is the
encoding of the message with that very ID and TTL, and `RenewHTTP(id)`, given that
response by the transport, returns `(ttl, nil)`; in particular it does not return the
ID-mismatch error. -/
theorem renew_end_to_end {σ : Type} (c : Codec) (l : Lessor σ) (r : Request) (s s1 : σ)
    (net : Net) (id ttl : Int) (url wire v : String) (req0 : ClientRequest)
    (hreqLaw : ∀ m w, c.marshalKeepAliveRequest m = Except.ok w →
      c.unmarshalKeepAliveRequest w = Except.ok m)
    (hrespLaw : ∀ m w, c.marshalKeepAliveResponse m = Except.ok w →
      c.unmarshalKeepAliveResponse w = Except.ok m)
    (hwire : c.marshalKeepAliveRequest { ID := id } = Except.ok wire)
    (hreq : net.NewRequest "POST" url wire = Except.ok req0)
    (hm : r.Method = "POST") (hp : r.Path = LeasePrefix) (hb : r.Body = Except.ok wire)
    (hrenew : l.Renew id s = (Except.ok ttl, s1))
    (hv : c.marshalKeepAliveResponse { ID := id, TTL := ttl } = Except.ok v)
    (hnet : ∀ resp, (ServeHTTP c l Gate.fired r s).out = Outcome.ret resp →
      net.Do { req0 with ContentType := "application/protobuf" } = Except.ok (deliver resp)) :
    (ServeHTTP c l Gate.fired r s).out
        = Outcome.ret { StatusCode := 200, ContentType := "application/protobuf", Body := v }
    ∧ c.unmarshalKeepAliveResponse v = Except.ok { ID := id, TTL := ttl }
    ∧ (ServeHTTP c l Gate.fired r s).lessor = s1
    ∧ RenewHTTP c net id url = (ttl, none)
    ∧ (RenewHTTP c net id url).2 ≠ some (Error.errorf "lease: renew id mismatch") := by
  have hU := hreqLaw _ _ hwire
  have hdec := hrespLaw _ _ hv
  have hS : ServeHTTP c l Gate.fired r s
      = { out := Outcome.ret
            { StatusCode := StatusOK, ContentType := "application/protobuf", Body := v },
          lessor := s1, events := [Event.waitch, Event.renew id] } := by
    rw [ServeHTTP_post c l Gate.fired r s wire hm hb, if_pos hp,
      serveRenew_renew_ok c l wire s s1 { ID := id } ttl hU hrenew]
    simp only [hv]
  have hout : (ServeHTTP c l Gate.fired r s).out
      = Outcome.ret { StatusCode := StatusOK, ContentType := "application/protobuf", Body := v } := by
    rw [hS]
  have hdo := hnet _ hout
  have hclient : RenewHTTP c net id url = (ttl, none) := by
    rw [RenewHTTP_response c net id url wire req0 _ v hwire hreq hdo rfl]
    simp [deliver, StatusOK, StatusRequestTimeout, StatusNotFound, hdec]
  refine ⟨hout, hdec, by rw [hS], hclient, ?_⟩
  rw [hclient]
  simp

/-- Witness for C14: over the loopback network, renewing lease 7 at the example lessor
returns its TTL of 30 and no error. -/
theorem renew_end_to_end_witness :
    RenewHTTP exampleCodec (loopback exampleCodec exampleLessor Gate.fired 0) 7 "/leases"
      = (30, none) :=
  (renew_end_to_end exampleCodec exampleLessor
    { Method := "POST", Path := "/leases", Body := Except.ok "renew 7" } 0 1
    (loopback exampleCodec exampleLessor Gate.fired 0) 7 30 "/leases" "renew 7" "renewed 7 30"
    { Method := "POST", URL := "/leases", ContentType := "", Body := "renew 7" }
    (fun m w h => by
      rcases m with ⟨mid⟩
      simp only [exampleCodec] at h ⊢
      split at h
      · rename_i h7
        simp only [Except.ok.injEq] at h
        subst h; subst h7; rfl
      · split at h
        · rename_i h9
          simp only [Except.ok.injEq] at h
          subst h; subst h9; rfl
        · cases h)
    (fun m w h => by
      simp only [exampleCodec] at h ⊢
      split at h
      · rename_i h7
        simp only [Except.ok.injEq] at h
        subst h; subst h7; rfl
      · cases h)
    rfl rfl rfl rfl rfl rfl rfl
    (fun resp h => by
      have h200 : (ServeHTTP exampleCodec exampleLessor Gate.fired
          { Method := "POST", Path := "/leases", Body := Except.ok "renew 7" } 0).out
          = Outcome.ret
              { StatusCode := StatusOK, ContentType := "application/protobuf",
                Body := "renewed 7 30" } := rfl
      rw [h200] at h
      cases h
      rfl)).2.2.2.1

/-- Every reply to a POST falls under one line of the status table, together with the
situation that produced it. -/
theorem ServeHTTP_status_cases {σ : Type} (c : Codec) (l : Lessor σ) (gate : Gate)
    (r : Request) (s : σ) (resp : Response) (hm : r.Method = "POST")
    (hout : (ServeHTTP c l gate r s).out = Outcome.ret resp) :
    (resp.StatusCode = 400 ∧ Malformed c r)
    ∨ (∃ err, resp = httpError err.Error 400 ∧ err ≠ Error.ErrLeaseNotFound
        ∧ gate = Gate.fired ∧ RenewFails c l r s err)
    ∨ (resp.StatusCode = 404 ∧ gate = Gate.fired ∧ LeaseNotFound c l r s)
    ∨ (resp.StatusCode = 408 ∧ gate = Gate.timedOut)
    ∨ (resp.StatusCode = 500 ∧ gate = Gate.fired ∧ EncodeFails c l r s)
    ∨ resp.StatusCode = 200 := by
  cases hb : r.Body with
  | error e =>
    rw [ServeHTTP_unreadable c l gate r s e hm hb] at hout
    cases hout
    exact Or.inl ⟨rfl, Or.inl ⟨e, hb⟩⟩
  | ok b =>
    rw [ServeHTTP_post c l gate r s b hm hb] at hout
    by_cases hp1 : r.Path = LeasePrefix
    · rw [if_pos hp1] at hout
      cases hU : c.unmarshalKeepAliveRequest b with
      | error e =>
        rw [serveRenew_undecodable c l gate b s e hU] at hout
        cases hout
        exact Or.inl ⟨rfl, Or.inr (Or.inl ⟨b, e, hb, hp1, hU⟩)⟩
      | ok q =>
        cases gate with
        | timedOut =>
          rw [serveRenew_timedOut c l b s q hU] at hout
          cases hout
          exact Or.inr (Or.inr (Or.inr (Or.inl ⟨rfl, rfl⟩)))
        | fired =>
          rcases hR : l.Renew q.ID s with ⟨res, s1⟩
          cases res with
          | error err =>
            rw [serveRenew_renew_error c l b s s1 q err hU hR] at hout
            by_cases hnf : err = Error.ErrLeaseNotFound
            · rw [if_pos hnf] at hout
              cases hout
              subst hnf
              exact Or.inr (Or.inr (Or.inl ⟨rfl, rfl, Or.inl ⟨b, q, s1, hb, hp1, hU, hR⟩⟩))
            · rw [if_neg hnf] at hout
              cases hout
              exact Or.inr (Or.inl ⟨err, rfl, hnf, rfl, ⟨b, q, s1, hb, hp1, hU, hR⟩⟩)
          | ok ttl =>
            rw [serveRenew_renew_ok c l b s s1 q ttl hU hR] at hout
            cases hM : c.marshalKeepAliveResponse { ID := q.ID, TTL := ttl } with
            | error e =>
              simp only [hM] at hout
              cases hout
              exact Or.inr (Or.inr (Or.inr (Or.inr (Or.inl
                ⟨rfl, rfl, Or.inl ⟨b, q, ttl, s1, e, hb, hp1, hU, hR, hM⟩⟩))))
            | ok v =>
              simp only [hM] at hout
              cases hout
              exact Or.inr (Or.inr (Or.inr (Or.inr (Or.inr rfl))))
    · rw [if_neg hp1] at hout
      by_cases hp2 : r.Path = LeaseInternalPrefix
      · rw [if_pos hp2] at hout
        cases hU : c.unmarshalInternalRequest b with
        | error e =>
          rw [serveTimeToLive_undecodable c l gate b s e hU] at hout
          cases hout
          exact Or.inl ⟨rfl, Or.inr (Or.inr (Or.inl ⟨b, e, hb, hp2, hU⟩))⟩
        | ok q =>
          cases gate with
          | timedOut =>
            rw [serveTimeToLive_timedOut c l b s q hU] at hout
            cases hout
            exact Or.inr (Or.inr (Or.inr (Or.inl ⟨rfl, rfl⟩)))
          | fired =>
            cases hq : q.LeaseTimeToLiveRequest with
            | none =>
              rw [serveTimeToLive_nil c l b s q hU hq] at hout
              cases hout
            | some treq =>
              cases hL : l.Lookup treq.ID s with
              | none =>
                rw [serveTimeToLive_absent c l b s q treq hU hq hL] at hout
                cases hout
                exact Or.inr (Or.inr (Or.inl
                  ⟨rfl, rfl, Or.inr ⟨b, q, treq, hb, hp2, hU, hq, hL⟩⟩))
              | some le =>
                rw [serveTimeToLive_present c l b s q treq le hU hq hL] at hout
                cases hM : c.marshalInternalResponse
                  { LeaseTimeToLiveResponse := some
                      { Header := some {}, ID := treq.ID, TTL := le.remainingSeconds,
                        GrantedTTL := le.ttl, Keys := if treq.Keys then le.keys else [] } } with
                | error e =>
                  simp only [hM] at hout
                  cases hout
                  exact Or.inr (Or.inr (Or.inr (Or.inr (Or.inl
                    ⟨rfl, rfl, Or.inr ⟨b, q, treq, le, e, hb, hp2, hU, hq, hL, hM⟩⟩))))
                | ok v =>
                  simp only [hM] at hout
                  cases hout
                  exact Or.inr (Or.inr (Or.inr (Or.inr (Or.inr rfl))))
      · rw [if_neg hp2] at hout
        cases hout
        exact Or.inl ⟨rfl, Or.inr (Or.inr (Or.inr ⟨hp1, hp2⟩))⟩

/-- Counterexample to C15 as stated: a well-formed renewal with the gate open, on which
`Renew` fails with an error other than `ErrLeaseNotFound`, is answered 400: the status of
a malformed request, not a status distinct from 400, 404, 408 and 500. -/
theorem status_table_counterexample :
    ¬ Malformed exampleCodec
        { Method := "POST", Path := "/leases", Body := Except.ok "renew 7" }
    ∧ demotedLessor.Renew 7 0 = (Except.error (Error.other 3 "not a primary lessor"), 0)
    ∧ (ServeHTTP exampleCodec demotedLessor Gate.fired
        { Method := "POST", Path := "/leases", Body := Except.ok "renew 7" } 0).out
      = Outcome.ret
          { StatusCode := 400, ContentType := "text/plain; charset=utf-8",
            Body := "not a primary lessor\n" } := by
  refine ⟨?_, rfl, rfl⟩
  rintro (⟨e, he⟩ | ⟨b, e, hb, _, hu⟩ | ⟨b, e, _, hp, _⟩ | ⟨hp, _⟩)
  · cases he
  · cases hb
    cases hu
  · exact absurd hp (by decide)
  · exact hp rfl

/-- Claim C15 (amended): every reply to a POST carries one of the statuses 200, 400, 404,
408, 500. Status 400 is returned only for a malformed request (unreadable or unparsable
body, unrecognized path) or for a `Lessor.Renew` failure other than lease-not-found, in
which case the body is the error message and a newline; 404 only for lease not found; 408
only for the apply-wait timeout; 500 only for an encode failure. A `Renew` failure other
than lease-not-found is always answered 400 with the error message as body. -/
theorem status_table {σ : Type} (c : Codec) (l : Lessor σ) (gate : Gate) (r : Request) (s : σ)
    (resp : Response) (hm : r.Method = "POST")
    (hout : (ServeHTTP c l gate r s).out = Outcome.ret resp) :
    (resp.StatusCode = 200 ∨ resp.StatusCode = 400 ∨ resp.StatusCode = 404
        ∨ resp.StatusCode = 408 ∨ resp.StatusCode = 500)
    ∧ (resp.StatusCode = 400 →
        Malformed c r
        ∨ ∃ err, err ≠ Error.ErrLeaseNotFound ∧ RenewFails c l r s err
            ∧ resp.Body = err.Error ++ "\n")
    ∧ (resp.StatusCode = 404 → LeaseNotFound c l r s)
    ∧ (resp.StatusCode = 408 → gate = Gate.timedOut)
    ∧ (resp.StatusCode = 500 → EncodeFails c l r s)
    ∧ (∀ err, err ≠ Error.ErrLeaseNotFound → gate = Gate.fired → RenewFails c l r s err →
        resp = { StatusCode := 400, ContentType := "text/plain; charset=utf-8",
                 Body := err.Error ++ "\n" }) := by
  have hlast : ∀ err, err ≠ Error.ErrLeaseNotFound → gate = Gate.fired →
      RenewFails c l r s err →
      resp = { StatusCode := 400, ContentType := "text/plain; charset=utf-8",
               Body := err.Error ++ "\n" } := by
    rintro err hne hg ⟨b, q, s1, hb, hp, hU, hR⟩
    subst hg
    rw [ServeHTTP_post c l Gate.fired r s b hm hb, if_pos hp,
      serveRenew_renew_error c l b s s1 q err hU hR, if_neg hne] at hout
    cases hout
    rfl
  rcases ServeHTTP_status_cases c l gate r s resp hm hout with
    ⟨hs, hc⟩ | ⟨err, hr, hne, _, hc⟩ | ⟨hs, _, hc⟩ | ⟨hs, hg⟩ | ⟨hs, _, hc⟩ | hs
  · refine ⟨Or.inr (Or.inl hs), fun _ => Or.inl hc, ?_, ?_, ?_, hlast⟩ <;>
      (intro h; rw [hs] at h; exact absurd h (by decide))
  · have hs : resp.StatusCode = 400 := by rw [hr]; rfl
    refine ⟨Or.inr (Or.inl hs), fun _ => Or.inr ⟨err, hne, hc, by rw [hr]; rfl⟩, ?_, ?_, ?_,
      hlast⟩ <;>
      (intro h; rw [hs] at h; exact absurd h (by decide))
  · refine ⟨Or.inr (Or.inr (Or.inl hs)), ?_, fun _ => hc, ?_, ?_, hlast⟩ <;>
      (intro h; rw [hs] at h; exact absurd h (by decide))
  · refine ⟨Or.inr (Or.inr (Or.inr (Or.inl hs))), ?_, ?_, fun _ => hg, ?_, hlast⟩ <;>
      (intro h; rw [hs] at h; exact absurd h (by decide))
  · refine ⟨Or.inr (Or.inr (Or.inr (Or.inr hs))), ?_, ?_, ?_, fun _ => hc, hlast⟩ <;>
      (intro h; rw [hs] at h; exact absurd h (by decide))
  · refine ⟨Or.inl hs, ?_, ?_, ?_, ?_, hlast⟩ <;>
      (intro h; rw [hs] at h; exact absurd h (by decide))

/-- Witness for C15: the reply of the demoted lessor to a well-formed renewal has status
400, and the table traces it to the failed renewal. -/
theorem status_table_witness :
    Malformed exampleCodec { Method := "POST", Path := "/leases", Body := Except.ok "renew 7" }
    ∨ ∃ err, err ≠ Error.ErrLeaseNotFound
        ∧ RenewFails exampleCodec demotedLessor
            { Method := "POST", Path := "/leases", Body := Except.ok "renew 7" } 0 err
        ∧ "not a primary lessor\n" = err.Error ++ "\n" :=
  (status_table exampleCodec demotedLessor Gate.fired
    { Method := "POST", Path := "/leases", Body := Except.ok "renew 7" } 0
    { StatusCode := 400, ContentType := "text/plain; charset=utf-8",
      Body := "not a primary lessor\n" } rfl rfl).2.1 rfl

/-- With the gate open, a POST to `/leases/internal` whose body decodes to a request
without its inner message makes the handler panic, whatever the codec and the lessor. -/
theorem ServeHTTP_nil_inner_panics {σ : Type} (c : Codec) (l : Lessor σ) (r : Request) (s : σ)
    (b : String) (hm : r.Method = "POST") (hp : r.Path = LeaseInternalPrefix)
    (hb : r.Body = Except.ok b)
    (hU : c.unmarshalInternalRequest b = Except.ok { LeaseTimeToLiveRequest := none }) :
    (ServeHTTP c l Gate.fired r s).out
      = Outcome.panic "runtime error: invalid memory address or nil pointer dereference" := by
  rw [ServeHTTP_post c l Gate.fired r s b hm hb,
    if_neg (by rw [hp]; exact LeaseInternalPrefix_ne), if_pos hp,
    serveTimeToLive_nil c l b s _ hU rfl]

/-- A status-200 reply whose body decodes to a response without its inner message makes
`TimeToLiveHTTP` panic, whatever the codec and the network. -/
theorem TimeToLiveHTTP_nil_inner_panics (c : Codec) (net : Net) (id : Int) (keys : Bool)
    (url wire b : String) (req0 : ClientRequest) (resp : HTTPResponse)
    (hwire : c.marshalInternalRequest
      { LeaseTimeToLiveRequest := some { ID := id, Keys := keys } } = Except.ok wire)
    (hreq : net.NewRequest "POST" url wire = Except.ok req0)
    (hdo : net.Do { req0 with ContentType := "application/protobuf" } = Except.ok resp)
    (hbody : resp.Body = Except.ok b) (hstatus : resp.StatusCode = 200)
    (hU : c.unmarshalInternalResponse b = Except.ok { LeaseTimeToLiveResponse := none }) :
    TimeToLiveHTTP c net Race.completed id keys url
      = Outcome.panic "runtime error: invalid memory address or nil pointer dereference" := by
  rw [TimeToLiveHTTP_response c net id keys url wire req0 resp b hwire hreq hdo hbody hstatus,
    hU]

/-- Evaluation for C20: with the gate open, a POST to `/leases/internal` whose (empty)
body decodes to a request without its inner message makes the handler panic on a nil
dereference instead of answering with a status; a status-200 reply whose (empty) body
decodes to a response without its inner message makes `TimeToLiveHTTP` panic likewise
instead of returning a response or an error. -/
theorem nil_inner_message_panics :
    exampleCodec.unmarshalInternalRequest "" = Except.ok { LeaseTimeToLiveRequest := none }
    ∧ (ServeHTTP exampleCodec exampleLessor Gate.fired
        { Method := "POST", Path := "/leases/internal", Body := Except.ok "" } 0).out
      = Outcome.panic "runtime error: invalid memory address or nil pointer dereference"
    ∧ exampleCodec.unmarshalInternalResponse "" = Except.ok { LeaseTimeToLiveResponse := none }
    ∧ TimeToLiveHTTP exampleCodec (cannedNet { StatusCode := 200, Body := Except.ok "" })
        Race.completed 7 true "/leases/internal"
      = Outcome.panic "runtime error: invalid memory address or nil pointer dereference" :=
  ⟨rfl, rfl, rfl, rfl⟩

end leasehttp

/-! ## Server statistics (`etcdserver/stats/server.go`) -/

namespace stats

open etcdserver (Time)

section serverStats

variable {F Q : Type}

/-- After `becomeLeader` the state is leader and the leader's name is the node's own ID,
provided that held before whenever the state was already leader. -/
theorem becomeLeader_inv (ss : ServerStats F Q) (now : Time)
    (h : ss.State = StateType.StateLeader → ss.LeaderInfo.Name = ss.ID) :
    (ss.becomeLeader now).State = StateType.StateLeader
    ∧ (ss.becomeLeader now).LeaderInfo.Name = (ss.becomeLeader now).ID
    ∧ (ss.becomeLeader now).ID = ss.ID
    ∧ (ss.becomeLeader now).SendAppendRequestCnt = ss.SendAppendRequestCnt
    ∧ (ss.becomeLeader now).RecvAppendRequestCnt = ss.RecvAppendRequestCnt := by
  unfold ServerStats.becomeLeader
  by_cases hs : ss.State = StateType.StateLeader
  · rw [if_neg (not_not.2 hs)]
    exact ⟨hs, h hs, rfl, rfl, rfl⟩
  · rw [if_pos hs]
    exact ⟨rfl, rfl, rfl, rfl, rfl⟩

/-- What `RecvAppendReq` does to the state and to the two counters. -/
theorem RecvAppendReq_fields (Insert : Q → RequestStats → Q) (ss : ServerStats F Q)
    (leader : String) (reqSize : Int) (now : Time) :
    (ss.RecvAppendReq Insert leader reqSize now).State = StateType.StateFollower
    ∧ (ss.RecvAppendReq Insert leader reqSize now).RecvAppendRequestCnt
        = (ss.RecvAppendRequestCnt + 1) % 2 ^ 64
    ∧ (ss.RecvAppendReq Insert leader reqSize now).SendAppendRequestCnt
        = ss.SendAppendRequestCnt
    ∧ (ss.RecvAppendReq Insert leader reqSize now).ID = ss.ID := by
  unfold ServerStats.RecvAppendReq
  by_cases hl : leader ≠ ss.LeaderInfo.Name
  · simp only [hl, if_true, ne_eq, not_false_eq_true, and_self]
  · simp only [hl, if_false, and_self]

/-- What `SendAppendReq` does to the state and to the two counters. -/
theorem SendAppendReq_fields (Insert : Q → RequestStats → Q) (ss : ServerStats F Q)
    (reqSize : Int) (nowLeader nowSend : Time) :
    (ss.SendAppendReq Insert reqSize nowLeader nowSend).State = StateType.StateLeader
    ∧ (ss.SendAppendReq Insert reqSize nowLeader nowSend).SendAppendRequestCnt
        = (ss.SendAppendRequestCnt + 1) % 2 ^ 64
    ∧ (ss.SendAppendReq Insert reqSize nowLeader nowSend).RecvAppendRequestCnt
        = ss.RecvAppendRequestCnt
    ∧ (ss.SendAppendReq Insert reqSize nowLeader nowSend).ID = ss.ID
    ∧ (ss.SendAppendReq Insert reqSize nowLeader nowSend).LeaderInfo
        = (ss.becomeLeader nowLeader).LeaderInfo := by
  unfold ServerStats.SendAppendReq ServerStats.becomeLeader
  by_cases hs : ss.State = StateType.StateLeader
  · simp only [hs, ne_eq, not_true_eq_false, if_false, and_self]
  · simp only [hs, ne_eq, not_false_eq_true, if_true, and_self]

/-- Every call keeps the node's ID and keeps the invariant "leader implies the leader's
name is the node's own ID". -/
theorem step_inv (Insert : Q → RequestStats → Q) (ss : ServerStats F Q) (call : Step)
    (h : ss.State = StateType.StateLeader → ss.LeaderInfo.Name = ss.ID) :
    ((ss.step Insert call).State = StateType.StateLeader →
      (ss.step Insert call).LeaderInfo.Name = (ss.step Insert call).ID)
    ∧ (ss.step Insert call).ID = ss.ID := by
  cases call with
  | RecvAppendReq leader reqSize now =>
    obtain ⟨hst, _, _, hid⟩ := RecvAppendReq_fields Insert ss leader reqSize now
    refine ⟨fun hl => ?_, hid⟩
    simp only [ServerStats.step] at hl
    rw [hst] at hl
    cases hl
  | SendAppendReq reqSize nowLeader nowSend =>
    obtain ⟨_, _, _, hid, hli⟩ := SendAppendReq_fields Insert ss reqSize nowLeader nowSend
    obtain ⟨_, hname, hid2, _, _⟩ := becomeLeader_inv ss nowLeader h
    refine ⟨fun _ => ?_, hid⟩
    simp only [ServerStats.step]
    rw [hli, hid, hname, hid2]
  | BecomeLeader now =>
    obtain ⟨_, hname, hid, _, _⟩ := becomeLeader_inv ss now h
    exact ⟨fun _ => hname, hid⟩

/-- Every sequence of calls keeps the node's ID and keeps the invariant. -/
theorem run_inv (Insert : Q → RequestStats → Q) (calls : List Step) :
    ∀ ss : ServerStats F Q,
      (ss.State = StateType.StateLeader → ss.LeaderInfo.Name = ss.ID) →
      ((ss.run Insert calls).State = StateType.StateLeader →
        (ss.run Insert calls).LeaderInfo.Name = (ss.run Insert calls).ID)
      ∧ (ss.run Insert calls).ID = ss.ID := by
  induction calls with
  | nil => intro ss h; exact ⟨h, rfl⟩
  | cons call rest ih =>
    intro ss h
    obtain ⟨hinv, hid⟩ := step_inv Insert ss call h
    obtain ⟨hinv2, hid2⟩ := ih (ss.step Insert call) hinv
    have hrun : ss.run Insert (call :: rest) = (ss.step Insert call).run Insert rest := rfl
    rw [hrun]
    exact ⟨hinv2, hid2.trans hid⟩

/-- Claim C23: starting from a `ServerStats` whose State is not leader, after every
sequence of `RecvAppendReq`, `SendAppendReq` and `BecomeLeader` calls State = leader
implies LeaderInfo.Name = ID (and ID is what it was). Moreover `BecomeLeader` on an object
that is already leader changes no field; `RecvAppendReq` always leaves State = follower,
adds one to RecvAppendRequestCnt modulo 2^64 and leaves SendAppendRequestCnt alone;
`SendAppendReq` always leaves State = leader, adds one to SendAppendRequestCnt modulo 2^64
and leaves RecvAppendRequestCnt alone. -/
theorem leader_name_invariant (Insert : Q → RequestStats → Q) (ss : ServerStats F Q)
    (calls : List Step) (h0 : ss.State ≠ StateType.StateLeader) :
    ((ss.run Insert calls).State = StateType.StateLeader →
      (ss.run Insert calls).LeaderInfo.Name = (ss.run Insert calls).ID)
    ∧ (ss.run Insert calls).ID = ss.ID
    ∧ (∀ (t : ServerStats F Q) (now : Time), t.State = StateType.StateLeader →
        t.BecomeLeader now = t)
    ∧ (∀ (t : ServerStats F Q) (leader : String) (reqSize : Int) (now : Time),
        (t.RecvAppendReq Insert leader reqSize now).State = StateType.StateFollower
        ∧ (t.RecvAppendReq Insert leader reqSize now).RecvAppendRequestCnt
            = (t.RecvAppendRequestCnt + 1) % 2 ^ 64
        ∧ (t.RecvAppendReq Insert leader reqSize now).SendAppendRequestCnt
            = t.SendAppendRequestCnt)
    ∧ (∀ (t : ServerStats F Q) (reqSize : Int) (nowLeader nowSend : Time),
        (t.SendAppendReq Insert reqSize nowLeader nowSend).State = StateType.StateLeader
        ∧ (t.SendAppendReq Insert reqSize nowLeader nowSend).SendAppendRequestCnt
            = (t.SendAppendRequestCnt + 1) % 2 ^ 64
        ∧ (t.SendAppendReq Insert reqSize nowLeader nowSend).RecvAppendRequestCnt
            = t.RecvAppendRequestCnt) := by
  obtain ⟨hinv, hid⟩ := run_inv Insert calls ss (fun hl => absurd hl h0)
  refine ⟨hinv, hid, ?_, ?_, ?_⟩
  · intro t now ht
    unfold ServerStats.BecomeLeader ServerStats.becomeLeader
    rw [if_neg (not_not.2 ht)]
  · intro t leader reqSize now
    obtain ⟨h1, h2, h3, _⟩ := RecvAppendReq_fields Insert t leader reqSize now
    exact ⟨h1, h2, h3⟩
  · intro t reqSize nowLeader nowSend
    obtain ⟨h1, h2, h3, _⟩ := SendAppendReq_fields Insert t reqSize nowLeader nowSend
    exact ⟨h1, h2, h3⟩

end serverStats

/-- Witness for C23: the example follower receives an append request from `n2`, then
sends one and is told once more that it leads; in the end its leader's name is its own ID
`n1`, and its receive counter has wrapped from the largest `uint64` to 0. -/
theorem leader_name_invariant_witness :
    (exampleStats.run exampleInsert
        [Step.RecvAppendReq "n2" 10 1001, Step.SendAppendReq 5 1002 1003,
         Step.BecomeLeader 1004]).LeaderInfo.Name = "n1"
    ∧ (exampleStats.RecvAppendReq exampleInsert "n2" 10 1001).RecvAppendRequestCnt = 0 :=
  have h := leader_name_invariant exampleInsert exampleStats
    [Step.RecvAppendReq "n2" 10 1001, Step.SendAppendReq 5 1002 1003, Step.BecomeLeader 1004]
    (by decide)
  ⟨h.1 rfl, (h.2.2.2.1 exampleStats "n2" 10 1001).2.1.trans (by decide)⟩

end stats
